import Mathlib

/-!
Process simulator (`process_simulator.c`): shallow embedding

The C program keeps its whole simulation in global variables that are mutated by
`quantum`, `unblock`, `schedule`, `block`, `end`, `forkProcess` and `replace`.
Here the globals are gathered in one record, `Sim`, and every C function is a
pure function from `Sim` to `Sim`.

Modelling conventions

* `pcbTable` is a list of PCB records; the C array has `MAX_PROCESSES` cells.
  A read outside the list yields the zero record and a write outside the list
  is dropped (both are undefined behaviour in C).
* `runningState` is `Option Nat`: `none` stands for the C sentinel `-1`.
* `readyQueue`/`blockedQueue` are the used parts
  `readyQueue[0 .. readyQueueSize)` and `blockedQueue[0 .. blockedQueueSize)`.
* `cpu.pProgram` is the index of the slot whose `program` the pointer refers
  to (every pointer the code stores has the form `&pcbTable[i].program`).
* Counters that move by one per command (`timestamp`, program counters,
  `nextProcessId`, `numTerminatedProcesses`) are unbounded numbers: reaching a
  32-bit limit takes about `2^31` commands and lies outside the model.
  Arithmetic whose operand comes from the program text or that can underflow
  is 32-bit: the register `value` (`add`, `decrement`), the `Fork` offset added
  to an `unsigned` counter, and the `unsigned` turnaround difference.
* `cumulativeTimeDiff` is a `double` that only ever receives non-negative
  integers; it is kept as an exact natural number.
* The file system seen by `fopen` is a function from a file name to the list
  of text lines of that file (`none`: the file cannot be opened); each line is
  followed by a newline and `fgets` cuts the text into pieces of at most 255
  characters.
* `cpu.programCounter` is the value of a C `int` that is not negative.
* The record has one field that is not a C variable, `fault`. It is raised
  where the C program leaves what the record can describe: a store to
  `instructions[i]` with `i` at or beyond `MAX_INSTRUCTIONS` (the store falls
  on the fields behind the array) and the load of a PCB counter of `2^31` or
  more into the `int` CPU counter (the value is negative and the next fetch
  reads in front of the array). The other fields of a record with
  `fault = true` are not a description of the C globals.
-/

namespace ProcessSimulator

/-- C constant `#define MAX_PROCESSES 10` -/
def MAX_PROCESSES : Nat := 10

/-- C constant `#define MAX_INSTRUCTIONS 100` -/
def MAX_INSTRUCTIONS : Nat := 100

/-- C type `typedef enum { STATE_READY, STATE_RUNNING, STATE_BLOCKED, STATE_TERMINATED } State;` -/
inductive State where
  | STATE_READY
  | STATE_RUNNING
  | STATE_BLOCKED
  | STATE_TERMINATED
  deriving DecidableEq, Repr

/-- Zero-initialised `State` is `STATE_READY` (enumerator 0). -/
instance : Inhabited State := ⟨State.STATE_READY⟩

/-- C type `struct Instruction { char operation; int intArg; char stringArg[256]; }` -/
structure Instruction where
  operation : Char
  intArg : Int
  stringArg : String
  deriving DecidableEq, Repr

/-- Zero-initialised instruction cell. -/
instance : Inhabited Instruction := ⟨⟨Char.ofNat 0, 0, ""⟩⟩

/-- C type `struct Program { Instruction instructions[MAX_INSTRUCTIONS]; int instructionCount; }` -/
structure Program where
  instructions : List Instruction
  instructionCount : Nat
  deriving DecidableEq, Repr

/-- Zero-initialised program: `MAX_INSTRUCTIONS` zero cells, count 0. -/
instance : Inhabited Program := ⟨⟨List.replicate MAX_INSTRUCTIONS default, 0⟩⟩

/-- C type `struct Cpu`; `pProgram` is the slot whose program is pointed to. -/
structure Cpu where
  pProgram : Nat
  programCounter : Nat
  value : Int
  timeSlice : Int
  timeSliceUsed : Int
  deriving DecidableEq, Repr

/-- C type `struct PcbEntry` -/
structure PcbEntry where
  processId : Int
  parentProcessId : Int
  program : Program
  programCounter : Nat
  value : Int
  priority : Nat
  state : State
  startTime : Nat
  timeUsed : Nat
  deriving DecidableEq, Repr

/-- Zero-initialised PCB (the state of every cell of the global table at load time). -/
instance : Inhabited PcbEntry := ⟨⟨0, 0, default, 0, 0, 0, State.STATE_READY, 0, 0⟩⟩

/-- The global variables of the program, and the mark `fault` that is raised
when the program leaves what this record can describe (see the conventions
above). -/
structure Sim where
  pcbTable : List PcbEntry
  timestamp : Nat
  cpu : Cpu
  runningState : Option Nat
  readyQueue : List Nat
  blockedQueue : List Nat
  cumulativeTimeDiff : Nat
  numTerminatedProcesses : Nat
  nextProcessId : Int
  fault : Bool := false
  deriving DecidableEq, Repr

/-- Read `pcbTable[i]`. -/
def getPcb (t : List PcbEntry) (i : Nat) : PcbEntry := t.getD i default

/-- Assign through `&pcbTable[i]`: the cell becomes `f` of its old content. -/
def modifyPcb (t : List PcbEntry) (i : Nat) (f : PcbEntry → PcbEntry) : List PcbEntry :=
  t.set i (f (getPcb t i))

/-- Result of a signed `int` operation whose exact value is `x` (two's complement). -/
def wrapInt (x : Int) : Int := (x + 2147483648) % 4294967296 - 2147483648

/-- C operation `unsigned += int`: the sum is taken modulo `2^32`. -/
def uaddInt (a : Nat) (b : Int) : Nat := (((a : Int) + b) % 4294967296).toNat

/-- C operation `unsigned - unsigned`: the difference is taken modulo `2^32`. -/
def usub (a b : Nat) : Nat := (((a : Int) - (b : Int)) % 4294967296).toNat

/-- C `isspace` in the "C" locale. -/
def isspace (c : Char) : Bool := c.toNat = 32 || (9 ≤ c.toNat && c.toNat ≤ 13)

/-- C `toupper` in the "C" locale. -/
def toupper (c : Char) : Char :=
  if 97 ≤ c.toNat ∧ c.toNat ≤ 122 then Char.ofNat (c.toNat - 32) else c

/-- The second loop of `trim`: drop trailing blanks of the text after its first character. -/
def dropTrailingSpaces : List Char → List Char
  | [] => []
  | c :: rest =>
    match dropTrailingSpaces rest with
    | [] => if isspace c then [] else [c]
    | r => c :: r

/-- C function `void trim(char *str)`: skip leading blanks, then cut trailing blanks while
`end > str` (the first remaining character is never removed). -/
def trim (str : List Char) : List Char :=
  match str.dropWhile isspace with
  | [] => []
  | c :: rest => c :: dropTrailingSpaces rest

/-- Digits read by `atoi`, most significant first, onto the accumulator. -/
def atoiDigits : List Char → Nat → Nat
  | [], acc => acc
  | c :: rest, acc =>
    if 48 ≤ c.toNat ∧ c.toNat ≤ 57 then atoiDigits rest (acc * 10 + (c.toNat - 48)) else acc

/-- The number `strtol` reads: blanks, an optional sign, then decimal digits. -/
def strtolValue (str : List Char) : Int :=
  match str.dropWhile isspace with
  | [] => 0
  | c :: rest =>
    if c = '-' then - (atoiDigits rest 0 : Int)
    else if c = '+' then (atoiDigits rest 0 : Int)
    else (atoiDigits (c :: rest) 0 : Int)

/-- The result of `strtol` for the exact value `x`: clamped to the range of a
64-bit `long`. -/
def clampLong (x : Int) : Int := max (-9223372036854775808) (min x 9223372036854775807)

/-- Library function `atoi`, which is `(int) strtol(str, NULL, 10)`: the value
read is clamped to the range of `long` and converted to `int`. -/
def atoi (str : List Char) : Int := wrapInt (clampLong (strtolValue str))

/-- The text `fgets` reads from a file with the given lines: every line is
followed by a newline. -/
def fileText : List String → List Char
  | [] => []
  | line :: rest => line.toList ++ (Char.ofNat 10 :: fileText rest)

/-- Library function `fgets` with room for `n` characters on the unread text: it
stops after a newline. The result is the piece read and the text left. -/
def fgets : Nat → List Char → List Char × List Char
  | 0, text => ([], text)
  | _ + 1, [] => ([], [])
  | n + 1, c :: text =>
    if c = Char.ofNat 10 then ([c], text)
    else (c :: (fgets n text).1, (fgets n text).2)

/-- The pieces the calls `fgets(line, 256, file)` of `createProgram` return one
after the other until the text is used up (each call reads at least one
character, so `fuel` calls suffice for a text of `fuel` characters). -/
def readPieces : Nat → List Char → List (List Char)
  | 0, _ => []
  | _ + 1, [] => []
  | fuel + 1, c :: text =>
    (fgets 255 (c :: text)).1 :: readPieces fuel (fgets 255 (c :: text)).2

/-- All pieces `fgets` returns for a file with the given lines. -/
def filePieces (lines : List String) : List (List Char) :=
  readPieces (fileText lines).length (fileText lines)

/-- The C string held by a buffer: the characters in front of the first NUL. -/
def cstr (buffer : List Char) : List Char := buffer.takeWhile (fun c => c.toNat != 0)

/-- What `createProgram` leaves: its return value (`ok` for 1), the program, and
whether a store fell outside the `instructions` array. -/
structure LoadResult where
  ok : Bool
  program : Program
  fault : Bool
  deriving DecidableEq, Repr

/-- Record an out-of-bounds store in a result. -/
def markFault (over : Bool) (r : LoadResult) : LoadResult :=
  { r with fault := over || r.fault }

/-- The body of the `while (fgets ...)` loop of `createProgram`, over the pieces
still to be read. The store goes to `instructions[instructionCount++]`; there
is no bound check in the source, so with `instructionCount` at or beyond
`MAX_INSTRUCTIONS` the store falls outside the array: the list is then left
as it is and `fault` is raised. -/
def createProgramLoop : List (List Char) → Program → LoadResult
  | [], program => ⟨true, program, false⟩
  | line :: rest, program =>
    match trim (cstr line) with
    | [] => createProgramLoop rest program
    | c :: tl =>
      let idx := program.instructionCount
      let over := decide (MAX_INSTRUCTIONS ≤ idx)
      let old := program.instructions.getD idx default
      let operation := toupper c
      let stringArg := trim tl
      let withArg (n : Int) : Program :=
        { instructions := program.instructions.set idx ⟨operation, n, String.mk stringArg⟩,
          instructionCount := idx + 1 }
      if operation = 'S' ∨ operation = 'A' ∨ operation = 'D' ∨ operation = 'F' then
        markFault over (createProgramLoop rest (withArg (atoi stringArg)))
      else if operation = 'B' ∨ operation = 'E' then
        markFault over (createProgramLoop rest (withArg old.intArg))
      else if operation = 'R' then
        if stringArg.length = 0 then ⟨false, withArg old.intArg, over⟩
        else markFault over (createProgramLoop rest (withArg old.intArg))
      else ⟨false, withArg old.intArg, over⟩

/-- C function `int createProgram(const char *filename, Program *program)` -/
def createProgram (fs : String → Option (List String)) (filename : String)
    (program : Program) : LoadResult :=
  match fs filename with
  | none => ⟨false, program, false⟩
  | some lines => createProgramLoop (filePieces lines) program

/-- C function `void set(int value)` -/
def set (value : Int) (s : Sim) : Sim :=
  { s with cpu := { s.cpu with value := value } }

/-- C function `void add(int value)` -/
def add (value : Int) (s : Sim) : Sim :=
  { s with cpu := { s.cpu with value := wrapInt (s.cpu.value + value) } }

/-- C function `void decrement(int value)` -/
def decrement (value : Int) (s : Sim) : Sim :=
  { s with cpu := { s.cpu with value := wrapInt (s.cpu.value - value) } }

/-- C function `void block()` -/
def block (s : Sim) : Sim :=
  match s.runningState with
  | none => s
  | some r =>
    { s with
      blockedQueue := s.blockedQueue ++ [r],
      pcbTable := modifyPcb s.pcbTable r (fun e =>
        { e with state := State.STATE_BLOCKED,
                 programCounter := s.cpu.programCounter,
                 value := s.cpu.value }),
      runningState := none }

/-- C function `void end()` -/
def endProcess (s : Sim) : Sim :=
  match s.runningState with
  | none => s
  | some r =>
    { s with
      cumulativeTimeDiff :=
        s.cumulativeTimeDiff + usub (s.timestamp + 1) (getPcb s.pcbTable r).startTime,
      numTerminatedProcesses := s.numTerminatedProcesses + 1,
      pcbTable := modifyPcb s.pcbTable r (fun e => { e with state := State.STATE_TERMINATED }),
      runningState := none }

/-- The scan `for (i = ...; i < MAX_PROCESSES; i++) if (pcbTable[i].state == STATE_TERMINATED)`
with `n` iterations left, starting at index `i`. -/
def scanTerminated (t : List PcbEntry) : Nat → Nat → Option Nat
  | _, 0 => none
  | i, n + 1 =>
    if (getPcb t i).state = State.STATE_TERMINATED then some i
    else scanTerminated t (i + 1) n

/-- The value of `newPcbIndex` after the loop of `forkProcess` (`none` for `-1`). -/
def findTerminated (t : List PcbEntry) : Option Nat := scanTerminated t 0 MAX_PROCESSES

/-- The assignments of `forkProcess` after a free cell `n` was found, `r` being
`runningState`; they are applied to the table one after the other, as in C. -/
def forkAssign (value : Int) (s : Sim) (r n : Nat) : List PcbEntry :=
  let t1 := modifyPcb s.pcbTable n (fun e => { e with processId := s.nextProcessId })
  let t2 := modifyPcb t1 n (fun e => { e with parentProcessId := (getPcb t1 r).processId })
  let t3 := modifyPcb t2 n (fun e => { e with program := (getPcb t2 r).program })
  let t4 := modifyPcb t3 n (fun e => { e with programCounter := (getPcb t3 r).programCounter })
  let t5 := modifyPcb t4 n (fun e => { e with value := (getPcb t4 r).value })
  let t6 := modifyPcb t5 n (fun e => { e with priority := (getPcb t5 r).priority })
  let t7 := modifyPcb t6 n (fun e => { e with state := State.STATE_READY })
  let t8 := modifyPcb t7 n (fun e => { e with startTime := s.timestamp })
  let t9 := modifyPcb t8 n (fun e => { e with timeUsed := 0 })
  modifyPcb t9 r (fun e => { e with programCounter := uaddInt e.programCounter value })

/-- C function `void forkProcess(int value)`; it is only called while a slot is running. -/
def forkProcess (value : Int) (s : Sim) : Sim :=
  match findTerminated s.pcbTable with
  | none => s
  | some n =>
    match s.runningState with
    | none => s
    | some r =>
      { s with
        pcbTable := forkAssign value s r n,
        nextProcessId := s.nextProcessId + 1,
        readyQueue := s.readyQueue ++ [n] }

/-- C function `void replace(char *argument)` -/
def replace (fs : String → Option (List String)) (argument : String) (s : Sim) : Sim :=
  let t1 := modifyPcb s.pcbTable s.cpu.pProgram (fun e =>
    { e with program := { e.program with instructionCount := 0 } })
  let res := createProgram fs argument (getPcb t1 s.cpu.pProgram).program
  let t2 := modifyPcb t1 s.cpu.pProgram (fun e => { e with program := res.program })
  if res.ok then
    { s with pcbTable := t2, cpu := { s.cpu with programCounter := 0 },
             fault := s.fault || res.fault }
  else
    { s with pcbTable := t2, cpu := { s.cpu with programCounter := s.cpu.programCounter + 1 },
             fault := s.fault || res.fault }

/-- C conversion of an `unsigned int` to `int`: values of `2^31` or more become
negative. -/
def toInt (u : Nat) : Int := wrapInt (u : Int)

/-- C function `void schedule()`. The assignment
`cpu.programCounter = pcb->programCounter` converts the `unsigned` PCB counter
to `int`; a negative result cannot be held by `cpu.programCounter` of this
record, which then raises `fault`. -/
def schedule (s : Sim) : Sim :=
  match s.runningState with
  | some _ => s
  | none =>
    match s.readyQueue with
    | [] => s
    | r :: rest =>
      let t := modifyPcb s.pcbTable r (fun e => { e with state := State.STATE_RUNNING })
      { s with
        runningState := some r,
        readyQueue := rest,
        pcbTable := t,
        cpu := { s.cpu with pProgram := r,
                            programCounter := (toInt (getPcb t r).programCounter).toNat,
                            value := (getPcb t r).value },
        fault := s.fault || decide (toInt (getPcb t r).programCounter < 0) }

/-- The `switch (instruction->operation)` of `quantum`, after the fetch. -/
def execute (fs : String → Option (List String)) (instruction : Instruction) (s : Sim) : Sim :=
  if instruction.operation = 'S' then set instruction.intArg s
  else if instruction.operation = 'A' then add instruction.intArg s
  else if instruction.operation = 'D' then decrement instruction.intArg s
  else if instruction.operation = 'B' then block s
  else if instruction.operation = 'E' then endProcess s
  else if instruction.operation = 'F' then forkProcess instruction.intArg s
  else if instruction.operation = 'R' then replace fs instruction.stringArg s
  else s

/-- The program `cpu.pProgram` points to. -/
def cpuProgram (s : Sim) : Program := (getPcb s.pcbTable s.cpu.pProgram).program

/-- C statement `++timestamp;` -/
def tick (s : Sim) : Sim := { s with timestamp := s.timestamp + 1 }

/-- C function `void quantum()` -/
def quantum (fs : String → Option (List String)) (s : Sim) : Sim :=
  match s.runningState with
  | none => tick s
  | some _ =>
    if s.cpu.programCounter < (cpuProgram s).instructionCount then
      let instruction := (cpuProgram s).instructions.getD s.cpu.programCounter default
      let s1 := { s with cpu := { s.cpu with programCounter := s.cpu.programCounter + 1 } }
      schedule (tick (execute fs instruction s1))
    else
      schedule (tick (endProcess s))

/-- C function `void unblock()` -/
def unblock (s : Sim) : Sim :=
  match s.blockedQueue with
  | [] => schedule s
  | processIndex :: rest =>
    schedule
      { s with
        blockedQueue := rest,
        readyQueue := s.readyQueue ++ [processIndex],
        pcbTable := modifyPcb s.pcbTable processIndex
          (fun e => { e with state := State.STATE_READY }) }

/-- C function `void printState()`: output only, the globals are not written. -/
def printState (s : Sim) : Sim := s

/-- The globals as the loader leaves them before `main` runs: zero-filled
arrays and the written initialisers (`runningState = -1`, `nextProcessId = 1`). -/
def initialGlobals : Sim :=
  { pcbTable := List.replicate MAX_PROCESSES default,
    timestamp := 0,
    cpu := ⟨0, 0, 0, 0, 0⟩,
    runningState := none,
    readyQueue := [],
    blockedQueue := [],
    cumulativeTimeDiff := 0,
    numTerminatedProcesses := 0,
    nextProcessId := 1 }

/-- The start-up part of `runProcessManager` (up to the command loop); `none`
when `createProgram` fails and the function returns `EXIT_FAILURE`. -/
def startUp (fs : String → Option (List String)) (filename : String) : Option Sim :=
  let res := createProgram fs filename (getPcb initialGlobals.pcbTable 0).program
  if res.ok then
    let t := modifyPcb initialGlobals.pcbTable 0 (fun e =>
      { e with program := res.program, processId := 0, parentProcessId := -1, programCounter := 0,
               value := 0, priority := 0, state := State.STATE_RUNNING, startTime := 0,
               timeUsed := 0 })
    some { initialGlobals with
      pcbTable := t,
      runningState := some 0,
      cpu := { initialGlobals.cpu with pProgram := 0,
                                       programCounter := (getPcb t 0).programCounter,
                                       value := (getPcb t 0).value },
      timestamp := 0,
      fault := res.fault }
  else none

/-- One turn of the command loop of `runProcessManager` for the character read. -/
def command (fs : String → Option (List String)) (ch : Char) (s : Sim) : Sim :=
  if ch = 'Q' then quantum fs s
  else if ch = 'U' then unblock s
  else if ch = 'P' then printState s
  else s

/-- The `do ... while (ch != 'T')` loop of `runProcessManager` over the
characters the pipe delivers. -/
def commandLoop (fs : String → Option (List String)) : List Char → Sim → Sim
  | [], s => s
  | ch :: rest, s =>
    if ch = 'T' then command fs ch s else commandLoop fs rest (command fs ch s)

/-- C function `int runProcessManager(int fileDescriptor, const char *filename)`:
the globals when the function returns (`none` for `EXIT_FAILURE`), `input`
being the characters read from the pipe. -/
def runProcessManager (fs : String → Option (List String)) (filename : String)
    (input : List Char) : Option Sim :=
  (startUp fs filename).map (commandLoop fs input)

/-- The value printed as average turnaround time, as an exact fraction. -/
def averageTurnaround (s : Sim) : ℚ :=
  if s.numTerminatedProcesses ≠ 0 then (s.cumulativeTimeDiff : ℚ) / (s.numTerminatedProcesses : ℚ)
  else 0


/-- The `state` field of `pcbTable[i]`. -/
def stateOf (t : List PcbEntry) (i : Nat) : State := (getPcb t i).state

/-- Invariant 1: at most one PCB is Running, and a PCB is Running iff it is
the running slot. -/
def Inv1 (s : Sim) : Prop :=
  (∀ r ∈ s.runningState, stateOf s.pcbTable r = State.STATE_RUNNING) ∧
  (∀ i < MAX_PROCESSES, stateOf s.pcbTable i = State.STATE_RUNNING → s.runningState = some i) ∧
  (∀ i < MAX_PROCESSES, ∀ j < MAX_PROCESSES, stateOf s.pcbTable i = State.STATE_RUNNING →
    stateOf s.pcbTable j = State.STATE_RUNNING → i = j)

instance (s : Sim) : Decidable (Inv1 s) := by
  unfold Inv1
  infer_instance

/-- Invariant 2: the queues hold only Ready / Blocked slots, without
duplicates, disjoint from each other and from the running slot. -/
def Inv2 (s : Sim) : Prop :=
  (∀ i ∈ s.readyQueue, stateOf s.pcbTable i = State.STATE_READY) ∧
  (∀ i ∈ s.blockedQueue, stateOf s.pcbTable i = State.STATE_BLOCKED) ∧
  s.readyQueue.Nodup ∧
  s.blockedQueue.Nodup ∧
  (∀ i ∈ s.readyQueue, i ∉ s.blockedQueue) ∧
  (∀ r ∈ s.runningState, r ∉ s.readyQueue ∧ r ∉ s.blockedQueue)

instance (s : Sim) : Decidable (Inv2 s) := by
  unfold Inv2
  infer_instance

/-- Invariant 4: a Terminated slot is in no queue and is not the running slot. -/
def Inv4 (s : Sim) : Prop :=
  ∀ i < MAX_PROCESSES, stateOf s.pcbTable i = State.STATE_TERMINATED →
    i ∉ s.readyQueue ∧ i ∉ s.blockedQueue ∧ s.runningState ≠ some i

instance (s : Sim) : Decidable (Inv4 s) := by
  unfold Inv4
  infer_instance

/-- Invariants 1, 2 and 4 of the data model together. -/
def Inv (s : Sim) : Prop := Inv1 s ∧ Inv2 s ∧ Inv4 s

instance (s : Sim) : Decidable (Inv s) := by
  unfold Inv
  infer_instance

/-- The table has `MAX_PROCESSES` cells and the queue entries are slot indices. -/
def Valid (s : Sim) : Prop :=
  s.pcbTable.length = MAX_PROCESSES ∧
  (∀ i ∈ s.readyQueue, i < MAX_PROCESSES) ∧
  (∀ i ∈ s.blockedQueue, i < MAX_PROCESSES)

instance (s : Sim) : Decidable (Valid s) := by
  unfold Valid
  infer_instance

/-- The part of `Inv` and `Valid` from which the rest follows, over the state
column of the table. -/
def Core (st : Nat → State) (run : Option Nat) (ready blocked : List Nat) : Prop :=
  (∀ r ∈ run, st r = State.STATE_RUNNING ∧ r < MAX_PROCESSES) ∧
  (∀ i < MAX_PROCESSES, st i = State.STATE_RUNNING → run = some i) ∧
  (∀ i ∈ ready, st i = State.STATE_READY ∧ i < MAX_PROCESSES) ∧
  (∀ i ∈ blocked, st i = State.STATE_BLOCKED ∧ i < MAX_PROCESSES) ∧
  ready.Nodup ∧ blocked.Nodup

/-- States reachable from the start-up state of `runProcessManager` by Step
(`Q`), Unblock (`U`) and Snapshot (`P`) commands. -/
inductive Reachable (fs : String → Option (List String)) (filename : String) : Sim → Prop where
  | start (s : Sim) : startUp fs filename = some s → Reachable fs filename s
  | step (s : Sim) : Reachable fs filename s → Reachable fs filename (quantum fs s)
  | unblock (s : Sim) : Reachable fs filename s → Reachable fs filename (unblock s)
  | snapshot (s : Sim) : Reachable fs filename s → Reachable fs filename (printState s)

/-- A program array holding the given instructions, the other cells zero. -/
def mkProgram (l : List Instruction) : Program :=
  ⟨l ++ List.replicate (MAX_INSTRUCTIONS - l.length) default, l.length⟩

/-- Example program `S 5; F 2; A 1; B; E; D 3`. -/
def demoProgram : Program :=
  mkProgram [⟨'S', 5, "5"⟩, ⟨'F', 2, "2"⟩, ⟨'A', 1, "1"⟩, ⟨'B', 0, ""⟩, ⟨'E', 0, ""⟩, ⟨'D', 3, "3"⟩]

/-- Example PCB running `demoProgram`. -/
def demoPcb (pid parent : Int) (pc : Nat) (v : Int) (st : State) (start : Nat) : PcbEntry :=
  ⟨pid, parent, demoProgram, pc, v, 0, st, start, 0⟩

/-- Example table: slot 0 (state `st0`, saved context `pc = 0`, `value = 0`),
slot 2 Ready, slot 3 Blocked, all other slots in state `free`. -/
def demoTable (st0 free : State) : List PcbEntry :=
  [demoPcb 0 (-1) 0 0 st0 0, demoPcb 3 0 0 0 free 1, demoPcb 1 0 2 7 State.STATE_READY 1,
    demoPcb 2 0 4 9 State.STATE_BLOCKED 2] ++ List.replicate 6 (demoPcb 4 0 0 0 free 3)

/-- Example globals at tick 4: `run` is the running slot, the CPU works on the
program of slot 0 at counter `pc` with register `v`; slot 2 is queued ready
and slot 3 is queued blocked. -/
def demo (st0 free : State) (run : Option Nat) (pc : Nat) (v : Int) : Sim :=
  { pcbTable := demoTable st0 free,
    timestamp := 4,
    cpu := ⟨0, pc, v, 0, 0⟩,
    runningState := run,
    readyQueue := [2],
    blockedQueue := [3],
    cumulativeTimeDiff := 6,
    numTerminatedProcesses := 2,
    nextProcessId := 5 }

/-- Example file system: `init` holds `S 5 / A 3 / E`, `bad` has an unknown
operation on its second line, no other file exists. -/
def demoFs : String → Option (List String) := fun f =>
  if f = "init" then some ["S 5", "A 3", "E"]
  else if f = "bad" then some ["S 1", "X 2", "S 3"]
  else none

/-- The start-up state for the file `init` of `demoFs`. -/
def demoStart : Sim := (startUp demoFs "init").getD initialGlobals

/-- The state `end()` followed by `++timestamp` produces from `s` when `r` is
running and the CPU context is `c`. -/
def endedState (s : Sim) (r : Nat) (c : Cpu) : Sim :=
  { s with
    cpu := c,
    cumulativeTimeDiff :=
      s.cumulativeTimeDiff + usub (s.timestamp + 1) (getPcb s.pcbTable r).startTime,
    numTerminatedProcesses := s.numTerminatedProcesses + 1,
    pcbTable := modifyPcb s.pcbTable r (fun e => { e with state := State.STATE_TERMINATED }),
    runningState := none,
    timestamp := s.timestamp + 1 }

/-- Number of non-blank pieces (pieces that `trim` leaves non-empty) among the
pieces read from a file. -/
def nonBlank (pieces : List (List Char)) : Nat :=
  (pieces.filter (fun line => (trim (cstr line)).length ≠ 0)).length

/-- Example program `R file; S 7; A 1; E`. -/
def replaceProgram (file : String) : Program :=
  mkProgram [⟨'R', 0, file⟩, ⟨'S', 7, "7"⟩, ⟨'A', 1, "1"⟩, ⟨'E', 0, ""⟩]

/-- Example globals: slot 0 runs `replaceProgram file` at counter 0, every
other slot is Terminated, the queues are empty. -/
def replaceDemo (file : String) : Sim :=
  { pcbTable := ⟨0, -1, replaceProgram file, 0, 0, 0, State.STATE_RUNNING, 0, 0⟩ ::
      List.replicate 9 (demoPcb 4 0 0 0 State.STATE_TERMINATED 3),
    timestamp := 0,
    cpu := ⟨0, 0, 0, 0, 0⟩,
    runningState := some 0,
    readyQueue := [],
    blockedQueue := [],
    cumulativeTimeDiff := 0,
    numTerminatedProcesses := 0,
    nextProcessId := 5 }

/-- Every `processId` stored in the table is strictly below the counter
`nextProcessId`. -/
def IdsBelow (s : Sim) : Prop :=
  ∀ i, i < MAX_PROCESSES → (getPcb s.pcbTable i).processId < s.nextProcessId

instance (s : Sim) : Decidable (IdsBelow s) := by
  unfold IdsBelow
  infer_instance

/-- The slot in which a Step on `s` creates a child: a slot is running, the
CPU counter is inside the program on an `F` instruction and the scan of
`forkProcess` finds a Terminated slot. -/
def forkChild (s : Sim) : Option Nat :=
  match s.runningState with
  | none => none
  | some _ =>
    if s.cpu.programCounter < (cpuProgram s).instructionCount ∧
        ((cpuProgram s).instructions.getD s.cpu.programCounter default).operation = 'F' then
      findTerminated s.pcbTable
    else none

/-- The process id a command issues: the `processId` found in the child's
slot after a Step that creates a child. -/
def issuedId (fs : String → Option (List String)) (ch : Char) (s : Sim) : Option Int :=
  if ch = 'Q' then (forkChild s).map (fun n => (getPcb (quantum fs s).pcbTable n).processId)
  else none

/-- The process ids issued, in order, while `commandLoop` consumes `input`. -/
def issuedIds (fs : String → Option (List String)) : List Char → Sim → List Int
  | [], _ => []
  | ch :: rest, s =>
    if ch = 'T' then []
    else (issuedId fs ch s).toList ++ issuedIds fs rest (command fs ch s)

/-- Example file system for the end-to-end trace: `trace` holds
`S 1 / B / S 2 / E`. -/
def traceFs : String → Option (List String) := fun f =>
  if f = "trace" then some ["S 1", "B", "S 2", "E"] else none

/-- The start-up state for the file `trace` of `traceFs`. -/
def traceStart : Sim := (startUp traceFs "trace").getD initialGlobals

/-- The CPU is not idle while a slot is queued ready. -/
def NoIdleReady (s : Sim) : Prop := s.runningState = none → s.readyQueue = []

instance (s : Sim) : Decidable (NoIdleReady s) := by
  unfold NoIdleReady
  infer_instance

/-- Example globals: the CPU is idle, the ready queue is `[2]`, and the PCB of
slot 2 holds the counter `4294967295` (as `forkProcess` leaves it after adding
the offset `-3` to a counter of 2). -/
def bigReadyDemo : Sim :=
  { demo State.STATE_BLOCKED State.STATE_TERMINATED none 1 5 with
    pcbTable := modifyPcb (demoTable State.STATE_BLOCKED State.STATE_TERMINATED) 2
      (fun e => { e with programCounter := 4294967295 }) }

/-- Example globals: the CPU is idle, the ready queue is empty, the blocked
queue is `[3]`, and the PCB of slot 3 holds the counter `4294967295`. -/
def bigBlockedDemo : Sim :=
  { demo State.STATE_BLOCKED State.STATE_TERMINATED none 1 5 with
    readyQueue := [],
    pcbTable := modifyPcb (demoTable State.STATE_BLOCKED State.STATE_TERMINATED) 3
      (fun e => { e with programCounter := 4294967295 }) }

/-- Example file of 101 non-blank lines: `F 1`, then 99 lines `S 1`, then a line
whose operation is `S` and whose argument is eight letters `A` followed by the
character with code 3. -/
def overlongLines : List String :=
  "F 1" :: (List.replicate 99 "S 1" ++
    [String.mk ('S' :: (List.replicate 8 'A' ++ [Char.ofNat 3]))])

/-- Example file system: `init` holds the single line `R big`, `big` holds
`overlongLines`, no other file exists. -/
def overlongFs : String → Option (List String) := fun f =>
  if f = "init" then some ["R big"]
  else if f = "big" then some overlongLines
  else none

/-- The start-up state for the file `init` of `overlongFs`. -/
def overlongStart : Sim := (startUp overlongFs "init").getD initialGlobals

/-- Example file of 101 non-blank lines: `E`, then 99 lines `S 1`, then a line
whose operation is `E` followed by sixteen letters `A`. -/
def overlongEndLines : List String :=
  "E" :: (List.replicate 99 "S 1" ++ [String.mk ('E' :: List.replicate 16 'A')])

/-- Example file system: `init` holds the single line `R long`, `long` holds
`overlongEndLines`, no other file exists. -/
def overlongEndFs : String → Option (List String) := fun f =>
  if f = "init" then some ["R long"]
  else if f = "long" then some overlongEndLines
  else none

/-- The start-up state for the file `init` of `overlongEndFs`. -/
def overlongEndStart : Sim := (startUp overlongEndFs "init").getD initialGlobals

theorem length_modifyPcb (t : List PcbEntry) (i : Nat) (f : PcbEntry → PcbEntry) :
    (modifyPcb t i f).length = t.length := by
  simp [modifyPcb]

theorem getPcb_modifyPcb (t : List PcbEntry) (i j : Nat) (f : PcbEntry → PcbEntry) :
    getPcb (modifyPcb t i f) j = if i = j ∧ i < t.length then f (getPcb t i) else getPcb t j := by
  unfold modifyPcb getPcb
  simp only [List.getD_eq_getElem?_getD, List.getElem?_set]
  by_cases h : i = j
  · subst h
    by_cases hl : i < t.length
    · simp [hl]
    · simp [hl, List.getElem?_eq_none (Nat.le_of_not_lt hl)]
  · simp [h]

theorem getPcb_of_length_le (t : List PcbEntry) (i : Nat) (h : t.length ≤ i) :
    getPcb t i = default := by
  unfold getPcb
  simp [List.getD_eq_getElem?_getD, List.getElem?_eq_none h]

theorem lt_length_of_stateOf_ne (t : List PcbEntry) (i : Nat)
    (h : stateOf t i ≠ State.STATE_READY) : i < t.length := by
  by_contra hl
  apply h
  unfold stateOf
  rw [getPcb_of_length_le t i (Nat.le_of_not_lt hl)]
  rfl

theorem inv_valid_iff_core (s : Sim) :
    (Inv s ∧ Valid s) ↔
      (Core (stateOf s.pcbTable) s.runningState s.readyQueue s.blockedQueue ∧
        s.pcbTable.length = MAX_PROCESSES) := by
  constructor
  · rintro ⟨⟨⟨h1, h2, -⟩, ⟨h4, h5, h6, h7, -, -⟩, -⟩, hl, hr, hb⟩
    refine ⟨⟨?_, h2, fun i hi => ⟨h4 i hi, hr i hi⟩, fun i hi => ⟨h5 i hi, hb i hi⟩, h6, h7⟩, hl⟩
    intro r hr
    refine ⟨h1 r hr, ?_⟩
    have := lt_length_of_stateOf_ne s.pcbTable r (by rw [h1 r hr]; decide)
    omega
  · rintro ⟨⟨c1, c2, c3, c4, c5, c6⟩, hl⟩
    refine ⟨⟨⟨fun r hr => (c1 r hr).1, c2, ?_⟩, ⟨fun i hi => (c3 i hi).1, fun i hi => (c4 i hi).1,
      c5, c6, ?_, ?_⟩, ?_⟩, hl, fun i hi => (c3 i hi).2, fun i hi => (c4 i hi).2⟩
    · intro i hi j hj hsi hsj
      have a := c2 i hi hsi
      have b := c2 j hj hsj
      rw [a] at b
      exact Option.some.inj b
    · intro i hi hb
      have a := (c3 i hi).1
      have b := (c4 i hb).1
      rw [a] at b
      exact absurd b (by decide)
    · intro r hr
      have a := (c1 r hr).1
      constructor
      · intro hi
        have b := (c3 r hi).1
        rw [a] at b
        exact absurd b (by decide)
      · intro hi
        have b := (c4 r hi).1
        rw [a] at b
        exact absurd b (by decide)
    · intro i _ ht
      refine ⟨?_, ?_, ?_⟩
      · intro hi
        have b := (c3 i hi).1
        rw [ht] at b
        exact absurd b (by decide)
      · intro hi
        have b := (c4 i hi).1
        rw [ht] at b
        exact absurd b (by decide)
      · intro hr
        have b := (c1 i hr).1
        rw [ht] at b
        exact absurd b (by decide)


theorem scanTerminated_some (t : List PcbEntry) (k i n : Nat)
    (h : scanTerminated t i k = some n) :
    i ≤ n ∧ n < i + k ∧ stateOf t n = State.STATE_TERMINATED ∧
      ∀ j, i ≤ j → j < n → stateOf t j ≠ State.STATE_TERMINATED := by
  induction k generalizing i with
  | zero => simp [scanTerminated] at h
  | succ k ih =>
    unfold scanTerminated at h
    split at h
    · rename_i hs
      have e : i = n := Option.some.inj h
      subst e
      exact ⟨le_refl _, by omega, hs, fun j h1 h2 => by omega⟩
    · rename_i hs
      obtain ⟨a, b, c, d⟩ := ih (i + 1) h
      refine ⟨by omega, by omega, c, ?_⟩
      intro j h1 h2
      by_cases e : j = i
      · subst e
        exact hs
      · exact d j (by omega) h2

theorem scanTerminated_none (t : List PcbEntry) (k i : Nat)
    (h : scanTerminated t i k = none) :
    ∀ j, i ≤ j → j < i + k → stateOf t j ≠ State.STATE_TERMINATED := by
  induction k generalizing i with
  | zero =>
    intro j h1 h2
    omega
  | succ k ih =>
    unfold scanTerminated at h
    split at h
    · cases h
    · rename_i hs
      intro j h1 h2
      by_cases e : j = i
      · subst e
        exact hs
      · exact ih (i + 1) h j (by omega) (by omega)

theorem findTerminated_some (t : List PcbEntry) (n : Nat) (h : findTerminated t = some n) :
    n < MAX_PROCESSES ∧ stateOf t n = State.STATE_TERMINATED ∧
      ∀ j, j < n → stateOf t j ≠ State.STATE_TERMINATED := by
  obtain ⟨_, b, c, d⟩ := scanTerminated_some t MAX_PROCESSES 0 n h
  exact ⟨by omega, c, fun j hj => d j (Nat.zero_le j) hj⟩

theorem findTerminated_none (t : List PcbEntry) (h : findTerminated t = none) :
    ∀ j, j < MAX_PROCESSES → stateOf t j ≠ State.STATE_TERMINATED := by
  intro j hj
  exact scanTerminated_none t MAX_PROCESSES 0 h j (Nat.zero_le j) (by omega)

theorem findTerminated_eq_none (t : List PcbEntry)
    (h : ∀ j, j < MAX_PROCESSES → stateOf t j ≠ State.STATE_TERMINATED) :
    findTerminated t = none := by
  cases e : findTerminated t with
  | none => rfl
  | some n =>
    obtain ⟨a, b, _⟩ := findTerminated_some t n e
    exact absurd b (h n a)

theorem findTerminated_isSome (t : List PcbEntry) (i : Nat) (hi : i < MAX_PROCESSES)
    (h : stateOf t i = State.STATE_TERMINATED) : ∃ n, findTerminated t = some n := by
  cases e : findTerminated t with
  | none => exact absurd h (findTerminated_none t e i hi)
  | some n => exact ⟨n, rfl⟩

theorem replace_frame (fs : String → Option (List String)) (arg : String) (s : Sim) :
    (replace fs arg s).pcbTable.length = s.pcbTable.length ∧
    (replace fs arg s).runningState = s.runningState ∧
    (replace fs arg s).readyQueue = s.readyQueue ∧
    (replace fs arg s).blockedQueue = s.blockedQueue := by
  unfold replace
  simp only []
  split <;> simp [length_modifyPcb]

set_option maxRecDepth 100000 in
/-- C1 (evaluation at the failing input). The init program is the single line
`R big` and the file `big` has 101 non-blank lines. The start-up state
satisfies invariants 1, 2 and 4 with valid queue entries, slot 0 runs and
fetches `R big`. The first 100 pieces of the file fill `instructions[0..99]`
without a store outside the array; the 101st piece is not blank, so the Step
stores it at `instructions[100]`, outside the array (the C store falls on the
fields of the PCB behind the array, `state` included): the Step raises
`fault`. -/
theorem C1_out_of_bounds_store :
    startUp overlongFs "init" = some overlongStart ∧
    Inv overlongStart ∧
    Valid overlongStart ∧
    overlongStart.fault = false ∧
    overlongStart.runningState = some 0 ∧
    overlongStart.cpu.pProgram = 0 ∧
    (cpuProgram overlongStart).instructions.getD overlongStart.cpu.programCounter default
      = ⟨'R', 0, "big"⟩ ∧
    (filePieces overlongLines).length = 101 ∧
    nonBlank (filePieces overlongLines) = 101 ∧
    (createProgramLoop ((filePieces overlongLines).take 100)
      { (getPcb overlongStart.pcbTable 0).program with instructionCount := 0 }).ok = true ∧
    (createProgramLoop ((filePieces overlongLines).take 100)
      { (getPcb overlongStart.pcbTable 0).program with instructionCount := 0 }).fault = false ∧
    (createProgramLoop ((filePieces overlongLines).take 100)
      { (getPcb overlongStart.pcbTable 0).program with instructionCount := 0
      }).program.instructionCount = MAX_INSTRUCTIONS ∧
    trim (cstr ((filePieces overlongLines).getD 100 []))
      = 'S' :: (List.replicate 8 'A' ++ [Char.ofNat 3]) ∧
    (createProgram overlongFs "big"
      { (getPcb overlongStart.pcbTable 0).program with instructionCount := 0 }).fault = true ∧
    (quantum overlongFs overlongStart).fault = true := by
  decide


theorem getPcb_forkAssign_child (value : Int) (s : Sim) (r n : Nat) (hne : n ≠ r)
    (hn : n < s.pcbTable.length) :
    getPcb (forkAssign value s r n) n =
      { processId := s.nextProcessId,
        parentProcessId := (getPcb s.pcbTable r).processId,
        program := (getPcb s.pcbTable r).program,
        programCounter := (getPcb s.pcbTable r).programCounter,
        value := (getPcb s.pcbTable r).value,
        priority := (getPcb s.pcbTable r).priority,
        state := State.STATE_READY,
        startTime := s.timestamp,
        timeUsed := 0 } := by
  have hne2 : ¬ r = n := fun e => hne e.symm
  simp [forkAssign, getPcb_modifyPcb, length_modifyPcb, hn, hne, hne2]

theorem getPcb_forkAssign_parent (value : Int) (s : Sim) (r n : Nat) (hne : n ≠ r)
    (hr : r < s.pcbTable.length) :
    getPcb (forkAssign value s r n) r =
      { getPcb s.pcbTable r with
        programCounter := uaddInt (getPcb s.pcbTable r).programCounter value } := by
  simp [forkAssign, getPcb_modifyPcb, length_modifyPcb, hr, hne]

theorem quantum_fork (fs : String → Option (List String)) (s : Sim) (r n : Nat)
    (hr : s.runningState = some r)
    (hpc : s.cpu.programCounter < (cpuProgram s).instructionCount)
    (hop : ((cpuProgram s).instructions.getD s.cpu.programCounter default).operation = 'F')
    (hn : findTerminated s.pcbTable = some n) :
    quantum fs s =
      { s with
        cpu := { s.cpu with programCounter := s.cpu.programCounter + 1 },
        pcbTable := forkAssign
          ((cpuProgram s).instructions.getD s.cpu.programCounter default).intArg s r n,
        nextProcessId := s.nextProcessId + 1,
        readyQueue := s.readyQueue ++ [n],
        timestamp := s.timestamp + 1 } := by
  unfold quantum
  rw [hr]
  simp only [hpc, if_true]
  unfold execute
  rw [hop]
  simp only [show ¬ ('F' = 'S') by decide, show ¬ ('F' = 'A') by decide,
    show ¬ ('F' = 'D') by decide, show ¬ ('F' = 'B') by decide,
    show ¬ ('F' = 'E') by decide, if_false, if_true]
  unfold forkProcess
  simp only [hn, hr]
  unfold tick schedule
  simp only [hr]
  rfl

theorem schedule_of_running (s : Sim) (r : Nat) (h : s.runningState = some r) :
    schedule s = s := by
  unfold schedule
  rw [h]

theorem schedule_of_idle_empty (s : Sim) (h : s.runningState = none) (hq : s.readyQueue = []) :
    schedule s = s := by
  unfold schedule
  rw [h, hq]

theorem quantum_fetch (fs : String → Option (List String)) (s : Sim) (r : Nat)
    (hr : s.runningState = some r)
    (hpc : s.cpu.programCounter < (cpuProgram s).instructionCount) :
    quantum fs s = schedule (tick (execute fs
      ((cpuProgram s).instructions.getD s.cpu.programCounter default)
      { s with cpu := { s.cpu with programCounter := s.cpu.programCounter + 1 } })) := by
  unfold quantum
  rw [hr]
  simp only [hpc, if_true]

theorem quantum_past_end (fs : String → Option (List String)) (s : Sim) (r : Nat)
    (hr : s.runningState = some r)
    (hpc : (cpuProgram s).instructionCount ≤ s.cpu.programCounter) :
    quantum fs s = schedule (tick (endProcess s)) := by
  unfold quantum
  rw [hr]
  simp only [Nat.not_lt.mpr hpc, if_false]

theorem usub_eq (a b : Nat) (h : b ≤ a) (ha : a < 4294967296) : usub a b = a - b := by
  unfold usub
  have h1 : ((a : Int) - (b : Int)) = ((a - b : Nat) : Int) := by omega
  rw [h1]
  have h2 : ((a - b : Nat) : Int) % 4294967296 = ((a - b : Nat) : Int) := by
    apply Int.emod_eq_of_lt <;> omega
  rw [h2]
  simp

theorem wrapInt_eq (x : Int) (h1 : -2147483648 ≤ x) (h2 : x ≤ 2147483647) : wrapInt x = x := by
  unfold wrapInt
  have : (x + 2147483648) % 4294967296 = x + 2147483648 := by
    apply Int.emod_eq_of_lt <;> omega
  omega

/-- C9. A Step with no running slot advances the clock by exactly 1 and changes
nothing else, also when the ready queue is non-empty: no slot is dispatched. -/
theorem C9_idle_step (fs : String → Option (List String)) (s : Sim)
    (h : s.runningState = none) :
    quantum fs s = { s with timestamp := s.timestamp + 1 } ∧
    (quantum fs s).timestamp = s.timestamp + 1 ∧
    (quantum fs s).runningState = none ∧
    (quantum fs s).readyQueue = s.readyQueue ∧
    (quantum fs s).blockedQueue = s.blockedQueue ∧
    (quantum fs s).pcbTable = s.pcbTable ∧
    (quantum fs s).cpu = s.cpu ∧
    (quantum fs s).nextProcessId = s.nextProcessId ∧
    (quantum fs s).cumulativeTimeDiff = s.cumulativeTimeDiff ∧
    (quantum fs s).numTerminatedProcesses = s.numTerminatedProcesses := by
  have e : quantum fs s = { s with timestamp := s.timestamp + 1 } := by
    unfold quantum tick
    rw [h]
  rw [e]
  exact ⟨rfl, rfl, h, rfl, rfl, rfl, rfl, rfl, rfl, rfl⟩

/-- C9 at a concrete idle state whose ready queue holds slot 2. -/
theorem C9_idle_step_witness :
    (demo State.STATE_BLOCKED State.STATE_TERMINATED none 1 5).readyQueue = [2] ∧
    quantum demoFs (demo State.STATE_BLOCKED State.STATE_TERMINATED none 1 5) =
      { demo State.STATE_BLOCKED State.STATE_TERMINATED none 1 5 with timestamp := 5 } ∧
    (quantum demoFs (demo State.STATE_BLOCKED State.STATE_TERMINATED none 1 5)).runningState
      = none :=
  ⟨rfl,
   (C9_idle_step demoFs (demo State.STATE_BLOCKED State.STATE_TERMINATED none 1 5) rfl).1,
   (C9_idle_step demoFs (demo State.STATE_BLOCKED State.STATE_TERMINATED none 1 5) rfl).2.2.1⟩

/-- C10. Fork with a full table (no slot is Terminated): the Step creates no
child; the table, both queues, the process-id counter, the register and the
statistics are unchanged, the parent stays the running slot, the CPU counter
is `p + 1` and the clock advances by 1. -/
theorem C10_fork_full_table (fs : String → Option (List String)) (s : Sim) (r : Nat)
    (hr : s.runningState = some r)
    (hpc : s.cpu.programCounter < (cpuProgram s).instructionCount)
    (hop : ((cpuProgram s).instructions.getD s.cpu.programCounter default).operation = 'F')
    (hfull : ∀ i, i < MAX_PROCESSES → stateOf s.pcbTable i ≠ State.STATE_TERMINATED) :
    quantum fs s =
      { s with cpu := { s.cpu with programCounter := s.cpu.programCounter + 1 },
               timestamp := s.timestamp + 1 } ∧
    (quantum fs s).pcbTable = s.pcbTable ∧
    (quantum fs s).readyQueue = s.readyQueue ∧
    (quantum fs s).blockedQueue = s.blockedQueue ∧
    (quantum fs s).nextProcessId = s.nextProcessId ∧
    (quantum fs s).cpu.value = s.cpu.value ∧
    (quantum fs s).cumulativeTimeDiff = s.cumulativeTimeDiff ∧
    (quantum fs s).numTerminatedProcesses = s.numTerminatedProcesses ∧
    (quantum fs s).runningState = some r ∧
    (quantum fs s).cpu.programCounter = s.cpu.programCounter + 1 ∧
    (quantum fs s).timestamp = s.timestamp + 1 := by
  have e : quantum fs s =
      { s with cpu := { s.cpu with programCounter := s.cpu.programCounter + 1 },
               timestamp := s.timestamp + 1 } := by
    rw [quantum_fetch fs s r hr hpc]
    have hx : execute fs ((cpuProgram s).instructions.getD s.cpu.programCounter default)
        { s with cpu := { s.cpu with programCounter := s.cpu.programCounter + 1 } } =
        { s with cpu := { s.cpu with programCounter := s.cpu.programCounter + 1 } } := by
      unfold execute
      rw [hop]
      simp only [show ¬ ('F' = 'S') by decide, show ¬ ('F' = 'A') by decide,
        show ¬ ('F' = 'D') by decide, show ¬ ('F' = 'B') by decide,
        show ¬ ('F' = 'E') by decide, if_false, if_true]
      unfold forkProcess
      rw [findTerminated_eq_none _ hfull]
    rw [hx]
    exact schedule_of_running _ r hr
  rw [e]
  exact ⟨rfl, rfl, rfl, rfl, rfl, rfl, rfl, rfl, hr, rfl, rfl⟩

/-- C10 at a concrete state: slot 0 runs at `F 2`, every other slot is Ready
or Blocked (as after start-up, where untouched slots read as Ready). -/
theorem C10_fork_full_table_witness :
    quantum demoFs (demo State.STATE_RUNNING State.STATE_READY (some 0) 1 5) =
      { demo State.STATE_RUNNING State.STATE_READY (some 0) 1 5 with
        cpu := ⟨0, 2, 5, 0, 0⟩, timestamp := 5 } :=
  (C10_fork_full_table demoFs (demo State.STATE_RUNNING State.STATE_READY (some 0) 1 5) 0
    rfl (by decide) (by decide) (by decide)).1


theorem execute_op (fs : String → Option (List String)) (ins : Instruction) (s : Sim) :
    (ins.operation = 'S' → execute fs ins s = set ins.intArg s) ∧
    (ins.operation = 'A' → execute fs ins s = add ins.intArg s) ∧
    (ins.operation = 'D' → execute fs ins s = decrement ins.intArg s) ∧
    (ins.operation = 'B' → execute fs ins s = block s) ∧
    (ins.operation = 'E' → execute fs ins s = endProcess s) ∧
    (ins.operation = 'F' → execute fs ins s = forkProcess ins.intArg s) ∧
    (ins.operation = 'R' → execute fs ins s = replace fs ins.stringArg s) := by
  unfold execute
  refine ⟨?_, ?_, ?_, ?_, ?_, ?_, ?_⟩ <;> intro h <;> rw [h] <;> simp

/-- C8. Register instructions of a running slot whose CPU counter `p` is inside
the program: `S n` makes the register `n`, `A n` makes it `v + n` and `D n`
makes it `v - n` (computed in 32-bit arithmetic, hence exactly `v + n` and
`v - n` when these are representable); in each case the CPU counter becomes
`p + 1`, the clock advances by 1 and everything else (running slot, queues,
table, process-id counter, statistics) is unchanged. -/
theorem C8_register_instructions (fs : String → Option (List String)) (s : Sim) (r : Nat)
    (n : Int) (hr : s.runningState = some r)
    (hpc : s.cpu.programCounter < (cpuProgram s).instructionCount)
    (harg : ((cpuProgram s).instructions.getD s.cpu.programCounter default).intArg = n) :
    (((cpuProgram s).instructions.getD s.cpu.programCounter default).operation = 'S' →
      quantum fs s =
        { s with cpu := { s.cpu with programCounter := s.cpu.programCounter + 1, value := n },
                 timestamp := s.timestamp + 1 }) ∧
    (((cpuProgram s).instructions.getD s.cpu.programCounter default).operation = 'A' →
      quantum fs s =
        { s with cpu := { s.cpu with programCounter := s.cpu.programCounter + 1,
                                     value := wrapInt (s.cpu.value + n) },
                 timestamp := s.timestamp + 1 } ∧
      (-2147483648 ≤ s.cpu.value + n → s.cpu.value + n ≤ 2147483647 →
        quantum fs s =
          { s with cpu := { s.cpu with programCounter := s.cpu.programCounter + 1,
                                       value := s.cpu.value + n },
                   timestamp := s.timestamp + 1 })) ∧
    (((cpuProgram s).instructions.getD s.cpu.programCounter default).operation = 'D' →
      quantum fs s =
        { s with cpu := { s.cpu with programCounter := s.cpu.programCounter + 1,
                                     value := wrapInt (s.cpu.value - n) },
                 timestamp := s.timestamp + 1 } ∧
      (-2147483648 ≤ s.cpu.value - n → s.cpu.value - n ≤ 2147483647 →
        quantum fs s =
          { s with cpu := { s.cpu with programCounter := s.cpu.programCounter + 1,
                                       value := s.cpu.value - n },
                   timestamp := s.timestamp + 1 })) := by
  have hq := quantum_fetch fs s r hr hpc
  obtain ⟨hS, hA, hD, -⟩ := execute_op fs
    ((cpuProgram s).instructions.getD s.cpu.programCounter default)
    { s with cpu := { s.cpu with programCounter := s.cpu.programCounter + 1 } }
  refine ⟨?_, ?_, ?_⟩
  · intro hop
    rw [hq, hS hop, harg]
    exact schedule_of_running _ r hr
  · intro hop
    have e : quantum fs s =
        { s with cpu := { s.cpu with programCounter := s.cpu.programCounter + 1,
                                     value := wrapInt (s.cpu.value + n) },
                 timestamp := s.timestamp + 1 } := by
      rw [hq, hA hop, harg]
      exact schedule_of_running _ r hr
    refine ⟨e, ?_⟩
    intro h1 h2
    rw [e, wrapInt_eq _ h1 h2]
  · intro hop
    have e : quantum fs s =
        { s with cpu := { s.cpu with programCounter := s.cpu.programCounter + 1,
                                     value := wrapInt (s.cpu.value - n) },
                 timestamp := s.timestamp + 1 } := by
      rw [hq, hD hop, harg]
      exact schedule_of_running _ r hr
    refine ⟨e, ?_⟩
    intro h1 h2
    rw [e, wrapInt_eq _ h1 h2]

/-- C8 at concrete states: `S 5` at counter 0, `A 1` at counter 2 with register
5, and `D 3` at counter 5 with register 5. -/
theorem C8_register_instructions_witness :
    quantum demoFs (demo State.STATE_RUNNING State.STATE_TERMINATED (some 0) 0 9) =
      { demo State.STATE_RUNNING State.STATE_TERMINATED (some 0) 0 9 with
        cpu := ⟨0, 1, 5, 0, 0⟩, timestamp := 5 } ∧
    quantum demoFs (demo State.STATE_RUNNING State.STATE_TERMINATED (some 0) 2 5) =
      { demo State.STATE_RUNNING State.STATE_TERMINATED (some 0) 2 5 with
        cpu := ⟨0, 3, 5 + 1, 0, 0⟩, timestamp := 5 } ∧
    quantum demoFs (demo State.STATE_RUNNING State.STATE_TERMINATED (some 0) 5 5) =
      { demo State.STATE_RUNNING State.STATE_TERMINATED (some 0) 5 5 with
        cpu := ⟨0, 6, 5 - 3, 0, 0⟩, timestamp := 5 } :=
  ⟨(C8_register_instructions demoFs (demo State.STATE_RUNNING State.STATE_TERMINATED (some 0) 0 9)
      0 5 rfl (by decide) (by decide)).1 (by decide),
   ((C8_register_instructions demoFs (demo State.STATE_RUNNING State.STATE_TERMINATED (some 0) 2 5)
      0 1 rfl (by decide) (by decide)).2.1 (by decide)).2 (by decide) (by decide),
   ((C8_register_instructions demoFs (demo State.STATE_RUNNING State.STATE_TERMINATED (some 0) 5 5)
      0 3 rfl (by decide) (by decide)).2.2 (by decide)).2 (by decide) (by decide)⟩

theorem toInt_of_lt (u : Nat) (h : u < 2147483648) :
    toInt u = (u : Int) ∧ (toInt u).toNat = u ∧ ¬ (toInt u < 0) := by
  have e : toInt u = (u : Int) := by
    unfold toInt
    exact wrapInt_eq _ (by omega) (by omega)
  rw [e]
  refine ⟨rfl, Int.toNat_ofNat u, ?_⟩
  omega

/-- C5. Block in a well-formed state: running slot `r`, CPU counter `p` inside
the program, instruction `B`. After the Step `r` is the last element of the
blocked queue (earlier entries keep their order), its state is Blocked, its
PCB holds `programCounter = p + 1` and the CPU register value, the clock has
advanced by 1, and the running slot is the former front of the ready queue
if there was one, otherwise none. -/
theorem C5_block (fs : String → Option (List String)) (s : Sim) (r : Nat)
    (hinv : Inv s) (hval : Valid s) (hr : s.runningState = some r)
    (hpc : s.cpu.programCounter < (cpuProgram s).instructionCount)
    (hop : ((cpuProgram s).instructions.getD s.cpu.programCounter default).operation = 'B') :
    (quantum fs s).blockedQueue = s.blockedQueue ++ [r] ∧
    stateOf (quantum fs s).pcbTable r = State.STATE_BLOCKED ∧
    (getPcb (quantum fs s).pcbTable r).programCounter = s.cpu.programCounter + 1 ∧
    (getPcb (quantum fs s).pcbTable r).value = s.cpu.value ∧
    (quantum fs s).timestamp = s.timestamp + 1 ∧
    (quantum fs s).runningState = s.readyQueue.head? ∧
    (quantum fs s).readyQueue = s.readyQueue.tail := by
  obtain ⟨hcore, hlen⟩ := (inv_valid_iff_core s).mp ⟨hinv, hval⟩
  obtain ⟨c1, -, c3, -, -, -⟩ := hcore
  have hrs := c1 r (by rw [hr]; rfl)
  have hrl : r < s.pcbTable.length := by
    have := hrs.2
    omega
  have hq := quantum_fetch fs s r hr hpc
  rw [(execute_op fs _ _).2.2.2.1 hop] at hq
  rw [hq]
  unfold block tick schedule
  simp only [hr]
  cases hready : s.readyQueue with
  | nil =>
    simp [stateOf, getPcb_modifyPcb, hrl]
  | cons q rest =>
    have hqr : q ≠ r := by
      intro e
      have := (c3 q (by rw [hready]; exact List.mem_cons_self q rest)).1
      rw [e, hrs.1] at this
      exact absurd this (by decide)
    have hqr2 : ¬ r = q := fun e => hqr e.symm
    simp [stateOf, getPcb_modifyPcb, length_modifyPcb, hrl, hqr, hqr2]

/-- C5 at a concrete well-formed state: slot 0 runs at `B` (counter 3) with
register 5, ready queue `[2]`, blocked queue `[3]`. -/
theorem C5_block_witness :
    (quantum demoFs (demo State.STATE_RUNNING State.STATE_TERMINATED (some 0) 3 5)).blockedQueue
      = [3, 0] ∧
    stateOf (quantum demoFs (demo State.STATE_RUNNING State.STATE_TERMINATED (some 0) 3 5)).pcbTable 0
      = State.STATE_BLOCKED ∧
    (getPcb (quantum demoFs
      (demo State.STATE_RUNNING State.STATE_TERMINATED (some 0) 3 5)).pcbTable 0).programCounter
      = 3 + 1 ∧
    (getPcb (quantum demoFs
      (demo State.STATE_RUNNING State.STATE_TERMINATED (some 0) 3 5)).pcbTable 0).value = 5 ∧
    (quantum demoFs (demo State.STATE_RUNNING State.STATE_TERMINATED (some 0) 3 5)).timestamp
      = 4 + 1 ∧
    (quantum demoFs (demo State.STATE_RUNNING State.STATE_TERMINATED (some 0) 3 5)).runningState
      = some 2 :=
  have h := C5_block demoFs (demo State.STATE_RUNNING State.STATE_TERMINATED (some 0) 3 5) 0
    (by decide) (by decide) rfl (by decide) (by decide)
  ⟨h.1, h.2.1, h.2.2.1, h.2.2.2.1, h.2.2.2.2.1, h.2.2.2.2.2.1⟩


theorem tick_endProcess (s : Sim) (r : Nat) (c : Cpu) (hr : s.runningState = some r) :
    tick (endProcess { s with cpu := c }) = endedState s r c := by
  unfold tick endProcess endedState
  simp only [hr]

theorem schedule_frame (s : Sim) :
    (schedule s).timestamp = s.timestamp ∧
    (schedule s).blockedQueue = s.blockedQueue ∧
    (schedule s).cumulativeTimeDiff = s.cumulativeTimeDiff ∧
    (schedule s).numTerminatedProcesses = s.numTerminatedProcesses ∧
    (schedule s).nextProcessId = s.nextProcessId := by
  unfold schedule
  cases hr : s.runningState with
  | some r => simp
  | none =>
    cases hq : s.readyQueue with
    | nil => simp
    | cons q rest => simp

theorem schedule_idle (s : Sim) (hr : s.runningState = none) :
    (schedule s).runningState = s.readyQueue.head? ∧
    (schedule s).readyQueue = s.readyQueue.tail ∧
    (schedule s).pcbTable =
      (match s.readyQueue with
       | [] => s.pcbTable
       | q :: _ => modifyPcb s.pcbTable q (fun e => { e with state := State.STATE_RUNNING })) := by
  unfold schedule
  rw [hr]
  cases hq : s.readyQueue with
  | nil => simp [hr, hq]
  | cons q rest => simp

theorem quantum_end (fs : String → Option (List String)) (s : Sim) (r : Nat)
    (hr : s.runningState = some r)
    (hend : (s.cpu.programCounter < (cpuProgram s).instructionCount ∧
        ((cpuProgram s).instructions.getD s.cpu.programCounter default).operation = 'E') ∨
      (cpuProgram s).instructionCount ≤ s.cpu.programCounter) :
    ∃ c : Cpu, c.pProgram = s.cpu.pProgram ∧ c.value = s.cpu.value ∧
      quantum fs s = schedule (endedState s r c) := by
  rcases hend with ⟨hpc, hop⟩ | hpc
  · refine ⟨{ s.cpu with programCounter := s.cpu.programCounter + 1 }, rfl, rfl, ?_⟩
    rw [quantum_fetch fs s r hr hpc, (execute_op fs _ _).2.2.2.2.1 hop]
    rw [tick_endProcess s r _ hr]
  · refine ⟨s.cpu, rfl, rfl, ?_⟩
    rw [quantum_past_end fs s r hr hpc]
    exact congrArg schedule (tick_endProcess s r s.cpu hr)

theorem getPcb_modifyPcb_field {α : Type} (g : PcbEntry → α) (t : List PcbEntry) (i j : Nat)
    (f : PcbEntry → PcbEntry) (hf : ∀ e, g (f e) = g e) :
    g (getPcb (modifyPcb t i f) j) = g (getPcb t j) := by
  rw [getPcb_modifyPcb]
  split
  · rename_i h
    rw [hf, h.1]
  · rfl

/-- C4. Termination accounting. With slot `r` running at tick `t`, a Step that
fetches `E`, or finds the CPU counter at or beyond the program length, is the
dispatcher applied to the state in which the turnaround `t + 1 - startTime r`
(the C expression on `unsigned int`, equal to the plain difference whenever
`startTime r ≤ t + 1`) has been added to the sum, the terminated count has
grown by 1, the state of `r` is Terminated, the running reference is cleared
and the clock is `t + 1`. In the state after the Step the sum, the count and
the clock have these values, the PCB of `r` still holds its old
`programCounter` and `value` (no write-back), the running slot is the former
front of the ready queue (none if it was empty), and `r` is Terminated and not
running if it was a valid slot outside the ready queue. A state that differs
only in the CPU context and is in the implicit-End case yields the same table,
queues, statistics, running slot and clock. -/
theorem C4_termination_accounting (fs : String → Option (List String)) (s : Sim) (r : Nat)
    (hr : s.runningState = some r)
    (hend : (s.cpu.programCounter < (cpuProgram s).instructionCount ∧
        ((cpuProgram s).instructions.getD s.cpu.programCounter default).operation = 'E') ∨
      (cpuProgram s).instructionCount ≤ s.cpu.programCounter) :
    (∃ c : Cpu, c.pProgram = s.cpu.pProgram ∧ c.value = s.cpu.value ∧
      quantum fs s = schedule (endedState s r c)) ∧
    (quantum fs s).cumulativeTimeDiff =
      s.cumulativeTimeDiff + usub (s.timestamp + 1) (getPcb s.pcbTable r).startTime ∧
    ((getPcb s.pcbTable r).startTime ≤ s.timestamp + 1 → s.timestamp + 1 < 4294967296 →
      (quantum fs s).cumulativeTimeDiff =
        s.cumulativeTimeDiff + (s.timestamp + 1 - (getPcb s.pcbTable r).startTime)) ∧
    (quantum fs s).numTerminatedProcesses = s.numTerminatedProcesses + 1 ∧
    (quantum fs s).timestamp = s.timestamp + 1 ∧
    (getPcb (quantum fs s).pcbTable r).programCounter = (getPcb s.pcbTable r).programCounter ∧
    (getPcb (quantum fs s).pcbTable r).value = (getPcb s.pcbTable r).value ∧
    (quantum fs s).runningState = s.readyQueue.head? ∧
    (quantum fs s).readyQueue = s.readyQueue.tail ∧
    (quantum fs s).blockedQueue = s.blockedQueue ∧
    (r < s.pcbTable.length → r ∉ s.readyQueue →
      stateOf (quantum fs s).pcbTable r = State.STATE_TERMINATED ∧
      (quantum fs s).runningState ≠ some r) ∧
    (∀ c : Cpu, (cpuProgram { s with cpu := c }).instructionCount ≤ c.programCounter →
      (quantum fs { s with cpu := c }).pcbTable = (quantum fs s).pcbTable ∧
      (quantum fs { s with cpu := c }).readyQueue = (quantum fs s).readyQueue ∧
      (quantum fs { s with cpu := c }).blockedQueue = (quantum fs s).blockedQueue ∧
      (quantum fs { s with cpu := c }).cumulativeTimeDiff = (quantum fs s).cumulativeTimeDiff ∧
      (quantum fs { s with cpu := c }).numTerminatedProcesses
        = (quantum fs s).numTerminatedProcesses ∧
      (quantum fs { s with cpu := c }).runningState = (quantum fs s).runningState ∧
      (quantum fs { s with cpu := c }).timestamp = (quantum fs s).timestamp) := by
  obtain ⟨c, hc1, hc2, hq⟩ := quantum_end fs s r hr hend
  have hf := schedule_frame (endedState s r c)
  have hi := schedule_idle (endedState s r c) rfl
  have htab : (quantum fs s).pcbTable =
      (match s.readyQueue with
       | [] => modifyPcb s.pcbTable r (fun e => { e with state := State.STATE_TERMINATED })
       | q :: _ => modifyPcb
          (modifyPcb s.pcbTable r (fun e => { e with state := State.STATE_TERMINATED })) q
          (fun e => { e with state := State.STATE_RUNNING })) := by
    rw [hq, hi.2.2]
    rfl
  refine ⟨⟨c, hc1, hc2, hq⟩, ?_, ?_, ?_, ?_, ?_, ?_, ?_, ?_, ?_, ?_, ?_⟩
  · rw [hq, hf.2.2.1]
    rfl
  · intro h1 h2
    rw [hq, hf.2.2.1, ← usub_eq _ _ h1 h2]
    rfl
  · rw [hq, hf.2.2.2.1]
    rfl
  · rw [hq, hf.1]
    rfl
  · rw [htab]
    cases s.readyQueue with
    | nil => exact getPcb_modifyPcb_field (fun e => e.programCounter) _ _ _ _ (fun _ => rfl)
    | cons q rest =>
      refine Eq.trans
        (getPcb_modifyPcb_field (fun e => e.programCounter) _ _ _ _ (fun _ => rfl)) ?_
      exact getPcb_modifyPcb_field (fun e => e.programCounter) _ _ _ _ (fun _ => rfl)
  · rw [htab]
    cases s.readyQueue with
    | nil => exact getPcb_modifyPcb_field (fun e => e.value) _ _ _ _ (fun _ => rfl)
    | cons q rest =>
      refine Eq.trans
        (getPcb_modifyPcb_field (fun e => e.value) _ _ _ _ (fun _ => rfl)) ?_
      exact getPcb_modifyPcb_field (fun e => e.value) _ _ _ _ (fun _ => rfl)
  · rw [hq, hi.1]
    rfl
  · rw [hq, hi.2.1]
    rfl
  · rw [hq, hf.2.1]
    rfl
  · intro hlt hnot
    constructor
    · rw [htab]
      cases hready : s.readyQueue with
      | nil => simp [stateOf, getPcb_modifyPcb, hlt]
      | cons q rest =>
        have hne : ¬ q = r := by
          intro e
          apply hnot
          rw [hready, e]
          exact List.mem_cons_self r rest
        simp [stateOf, getPcb_modifyPcb, length_modifyPcb, hlt, hne]
    · rw [hq, hi.1]
      intro e
      apply hnot
      exact List.mem_of_mem_head? e
  · intro c2 hc
    have hq2 : quantum fs { s with cpu := c2 } = schedule (endedState s r c2) := by
      rw [quantum_past_end fs { s with cpu := c2 } r hr hc]
      exact congrArg schedule (tick_endProcess s r c2 hr)
    have hf2 := schedule_frame (endedState s r c2)
    have hi2 := schedule_idle (endedState s r c2) rfl
    rw [hq, hq2]
    refine ⟨?_, ?_, ?_, ?_, ?_, ?_, ?_⟩
    · rw [hi.2.2, hi2.2.2]
      rfl
    · rw [hi.2.1, hi2.2.1]
      rfl
    · rw [hf.2.1, hf2.2.1]
      rfl
    · rw [hf.2.2.1, hf2.2.2.1]
      rfl
    · rw [hf.2.2.2.1, hf2.2.2.2.1]
      rfl
    · rw [hi.1, hi2.1]
      rfl
    · rw [hf.1, hf2.1]
      rfl

/-- C4 on the run of `S 5 / A 3 / E` from start-up: before the third Step
slot 0 runs at tick 2 with register 8; the third Step fetches `E` and
contributes `2 + 1 - 0 = 3`. -/
theorem C4_termination_accounting_witness :
    startUp demoFs "init" = some demoStart ∧
    (quantum demoFs (quantum demoFs demoStart)).runningState = some 0 ∧
    (quantum demoFs (quantum demoFs demoStart)).timestamp = 2 ∧
    (quantum demoFs (quantum demoFs demoStart)).cpu.value = 8 ∧
    (quantum demoFs (quantum demoFs (quantum demoFs demoStart))).cumulativeTimeDiff = 3 ∧
    (quantum demoFs (quantum demoFs (quantum demoFs demoStart))).numTerminatedProcesses = 1 ∧
    (quantum demoFs (quantum demoFs (quantum demoFs demoStart))).timestamp = 3 ∧
    (quantum demoFs (quantum demoFs (quantum demoFs demoStart))).runningState = none ∧
    stateOf (quantum demoFs (quantum demoFs (quantum demoFs demoStart))).pcbTable 0
      = State.STATE_TERMINATED :=
  have h := C4_termination_accounting demoFs (quantum demoFs (quantum demoFs demoStart)) 0
    (by decide) (Or.inl ⟨by decide, by decide⟩)
  ⟨by decide, by decide, by decide, by decide,
   (h.2.2.1 (by decide) (by decide)).trans (by decide),
   h.2.2.2.1.trans (by decide),
   h.2.2.2.2.1.trans (by decide),
   h.2.2.2.2.2.2.2.1.trans (by decide),
   (h.2.2.2.2.2.2.2.2.2.2.1 (by decide) (by decide)).1⟩


/-- C11. Fork child bookkeeping in a well-formed state at tick `t`: running
parent `r`, CPU counter inside the program on an `F` instruction, at least
one Terminated slot. After the Step the child occupies the lowest-indexed
Terminated slot `n`; its `processId` is the old value of the process-id
counter, which has grown by 1; its `parentProcessId`, `priority` and `program`
are those of the parent's PCB; its state is Ready, its `startTime` is `t`, its
`timeUsed` is 0; and `n` is the last element of the ready queue, the earlier
entries being unchanged. -/
theorem C11_fork_child_bookkeeping (fs : String → Option (List String)) (s : Sim) (r : Nat)
    (hinv : Inv s) (hval : Valid s) (hr : s.runningState = some r)
    (hpc : s.cpu.programCounter < (cpuProgram s).instructionCount)
    (hop : ((cpuProgram s).instructions.getD s.cpu.programCounter default).operation = 'F')
    (hfree : ∃ i, i < MAX_PROCESSES ∧ stateOf s.pcbTable i = State.STATE_TERMINATED) :
    ∃ n, n < MAX_PROCESSES ∧
      stateOf s.pcbTable n = State.STATE_TERMINATED ∧
      (∀ j, j < n → stateOf s.pcbTable j ≠ State.STATE_TERMINATED) ∧
      (getPcb (quantum fs s).pcbTable n).processId = s.nextProcessId ∧
      (quantum fs s).nextProcessId = s.nextProcessId + 1 ∧
      (getPcb (quantum fs s).pcbTable n).parentProcessId = (getPcb s.pcbTable r).processId ∧
      (getPcb (quantum fs s).pcbTable n).priority = (getPcb s.pcbTable r).priority ∧
      (getPcb (quantum fs s).pcbTable n).program = (getPcb s.pcbTable r).program ∧
      (getPcb (quantum fs s).pcbTable n).state = State.STATE_READY ∧
      (getPcb (quantum fs s).pcbTable n).startTime = s.timestamp ∧
      (getPcb (quantum fs s).pcbTable n).timeUsed = 0 ∧
      (quantum fs s).readyQueue = s.readyQueue ++ [n] := by
  obtain ⟨i, hi, hti⟩ := hfree
  obtain ⟨n, hn⟩ := findTerminated_isSome s.pcbTable i hi hti
  obtain ⟨hnlt, hnt, hmin⟩ := findTerminated_some s.pcbTable n hn
  obtain ⟨hcore, hlen⟩ := (inv_valid_iff_core s).mp ⟨hinv, hval⟩
  have hrs := (hcore.1 r (by rw [hr]; rfl)).1
  have hne : n ≠ r := by
    intro e
    rw [e, hrs] at hnt
    exact absurd hnt (by decide)
  have hnl : n < s.pcbTable.length := by omega
  have hq := quantum_fork fs s r n hr hpc hop hn
  have hchild := getPcb_forkAssign_child
    ((cpuProgram s).instructions.getD s.cpu.programCounter default).intArg s r n hne hnl
  refine ⟨n, hnlt, hnt, hmin, ?_⟩
  rw [hq]
  dsimp only
  rw [hchild]
  exact ⟨rfl, rfl, rfl, rfl, rfl, rfl, rfl, rfl, rfl⟩

/-- C11 at a concrete well-formed state: slot 0 (process id 0) runs at `F 2`
at tick 4, the counter is 5, slot 1 is the first Terminated slot. -/
theorem C11_fork_child_bookkeeping_witness :
    stateOf (demo State.STATE_RUNNING State.STATE_TERMINATED (some 0) 1 5).pcbTable 1
      = State.STATE_TERMINATED ∧
    (getPcb (quantum demoFs
      (demo State.STATE_RUNNING State.STATE_TERMINATED (some 0) 1 5)).pcbTable 1).processId = 5 ∧
    (quantum demoFs (demo State.STATE_RUNNING State.STATE_TERMINATED (some 0) 1 5)).nextProcessId
      = 5 + 1 ∧
    (getPcb (quantum demoFs
      (demo State.STATE_RUNNING State.STATE_TERMINATED (some 0) 1 5)).pcbTable 1).parentProcessId
      = 0 ∧
    (getPcb (quantum demoFs
      (demo State.STATE_RUNNING State.STATE_TERMINATED (some 0) 1 5)).pcbTable 1).state
      = State.STATE_READY ∧
    (getPcb (quantum demoFs
      (demo State.STATE_RUNNING State.STATE_TERMINATED (some 0) 1 5)).pcbTable 1).startTime = 4 ∧
    (getPcb (quantum demoFs
      (demo State.STATE_RUNNING State.STATE_TERMINATED (some 0) 1 5)).pcbTable 1).timeUsed = 0 ∧
    (quantum demoFs (demo State.STATE_RUNNING State.STATE_TERMINATED (some 0) 1 5)).readyQueue
      = [2] ++ [1] := by
  obtain ⟨n, -, h2, -, h4, h5, h6, -, -, h9, h10, h11, h12⟩ :=
    C11_fork_child_bookkeeping demoFs
      (demo State.STATE_RUNNING State.STATE_TERMINATED (some 0) 1 5) 0
      (by decide) (by decide) rfl (by decide) (by decide) ⟨1, by decide, by decide⟩
  have hq : (quantum demoFs
      (demo State.STATE_RUNNING State.STATE_TERMINATED (some 0) 1 5)).readyQueue = [2, 1] := by
    decide
  have hn : n = 1 := by
    rw [hq] at h12
    have h13 : [2, 1] = [2] ++ [n] := h12
    simpa using h13.symm
  subst hn
  exact ⟨h2, h4, h5, h6, h9, h10, h11, h12⟩

theorem createProgramLoop_cons (line : List Char) (rest : List (List Char))
    (program : Program) :
    createProgramLoop (line :: rest) program =
      (match trim (cstr line) with
       | [] => createProgramLoop rest program
       | c :: tl =>
         if toupper c = 'S' ∨ toupper c = 'A' ∨ toupper c = 'D' ∨ toupper c = 'F' then
           markFault (decide (MAX_INSTRUCTIONS ≤ program.instructionCount))
             (createProgramLoop rest
               { instructions := program.instructions.set program.instructionCount
                   ⟨toupper c, atoi (trim tl), String.mk (trim tl)⟩,
                 instructionCount := program.instructionCount + 1 })
         else if toupper c = 'B' ∨ toupper c = 'E' then
           markFault (decide (MAX_INSTRUCTIONS ≤ program.instructionCount))
             (createProgramLoop rest
               { instructions := program.instructions.set program.instructionCount
                   ⟨toupper c, (program.instructions.getD program.instructionCount default).intArg,
                     String.mk (trim tl)⟩,
                 instructionCount := program.instructionCount + 1 })
         else if toupper c = 'R' then
           if (trim tl).length = 0 then
             ⟨false,
               { instructions := program.instructions.set program.instructionCount
                   ⟨toupper c, (program.instructions.getD program.instructionCount default).intArg,
                     String.mk (trim tl)⟩,
                 instructionCount := program.instructionCount + 1 },
               decide (MAX_INSTRUCTIONS ≤ program.instructionCount)⟩
           else
             markFault (decide (MAX_INSTRUCTIONS ≤ program.instructionCount))
               (createProgramLoop rest
                 { instructions := program.instructions.set program.instructionCount
                     ⟨toupper c,
                       (program.instructions.getD program.instructionCount default).intArg,
                       String.mk (trim tl)⟩,
                   instructionCount := program.instructionCount + 1 })
         else
           ⟨false,
             { instructions := program.instructions.set program.instructionCount
                 ⟨toupper c, (program.instructions.getD program.instructionCount default).intArg,
                   String.mk (trim tl)⟩,
               instructionCount := program.instructionCount + 1 },
             decide (MAX_INSTRUCTIONS ≤ program.instructionCount)⟩) := by
  rw [createProgramLoop]

theorem markFault_fields (over : Bool) (r : LoadResult) :
    (markFault over r).ok = r.ok ∧ (markFault over r).program = r.program ∧
    (markFault over r).fault = (over || r.fault) :=
  ⟨rfl, rfl, rfl⟩

theorem markFault_markFault (a b : Bool) (r : LoadResult) :
    markFault a (markFault b r) = markFault (a || b) r := by
  unfold markFault
  simp [Bool.or_assoc]

theorem markFault_false (r : LoadResult) : markFault false r = r := by
  unfold markFault
  simp

theorem createProgramLoop_nil (p : Program) : createProgramLoop [] p = ⟨true, p, false⟩ := by
  rw [createProgramLoop]

theorem createProgramLoop_append (pre post : List (List Char)) (p : Program)
    (h : (createProgramLoop pre p).ok = true) :
    createProgramLoop (pre ++ post) p =
      markFault (createProgramLoop pre p).fault
        (createProgramLoop post (createProgramLoop pre p).program) := by
  induction pre generalizing p with
  | nil =>
    rw [createProgramLoop_nil, List.nil_append]
    exact (markFault_false _).symm
  | cons line rest ih =>
    rw [List.cons_append, createProgramLoop_cons]
    rw [createProgramLoop_cons] at h
    rw [createProgramLoop_cons line rest]
    split
    · rename_i ht
      rw [ht] at h
      exact ih p h
    · rename_i c tl ht
      rw [ht] at h
      dsimp only at h ⊢
      split
      · rename_i h1
        rw [if_pos h1] at h
        rw [ih _ h, markFault_markFault]
        rfl
      · rename_i h1
        rw [if_neg h1] at h
        split
        · rename_i h2
          rw [if_pos h2] at h
          rw [ih _ h, markFault_markFault]
          rfl
        · rename_i h2
          rw [if_neg h2] at h
          split
          · rename_i h3
            rw [if_pos h3] at h
            split
            · rename_i h4
              rw [if_pos h4] at h
              cases h
            · rename_i h4
              rw [if_neg h4] at h
              rw [ih _ h, markFault_markFault]
              rfl
          · rename_i h3
            rw [if_neg h3] at h
            cases h

theorem nonBlank_cons_blank (line : List Char) (rest : List (List Char))
    (h : trim (cstr line) = []) : nonBlank (line :: rest) = nonBlank rest := by
  simp [nonBlank, List.filter_cons, h]

theorem nonBlank_cons_text (line : List Char) (rest : List (List Char)) (c : Char)
    (tl : List Char) (h : trim (cstr line) = c :: tl) :
    nonBlank (line :: rest) = nonBlank rest + 1 := by
  simp [nonBlank, List.filter_cons, h]

theorem createProgramLoop_count (lines : List (List Char)) (p : Program)
    (h : (createProgramLoop lines p).ok = true) :
    (createProgramLoop lines p).program.instructionCount =
      p.instructionCount + nonBlank lines ∧
    (p.instructionCount + nonBlank lines ≤ MAX_INSTRUCTIONS →
      (createProgramLoop lines p).fault = false) := by
  induction lines generalizing p with
  | nil =>
    rw [createProgramLoop_nil]
    exact ⟨rfl, fun _ => rfl⟩
  | cons line rest ih =>
    rw [createProgramLoop_cons] at h ⊢
    split
    · rename_i ht
      rw [ht] at h
      rw [nonBlank_cons_blank line rest ht]
      exact ih p h
    · rename_i c tl ht
      rw [ht] at h
      rw [nonBlank_cons_text line rest c tl ht]
      dsimp only at h ⊢
      split
      · rename_i h1
        rw [if_pos h1] at h
        obtain ⟨k1, k2⟩ := ih _ h
        dsimp only at k1 k2
        refine ⟨?_, ?_⟩
        · rw [(markFault_fields _ _).2.1, k1]
          omega
        · intro hb
          rw [(markFault_fields _ _).2.2, k2 (by omega)]
          simp
          omega
      · rename_i h1
        rw [if_neg h1] at h
        split
        · rename_i h2
          rw [if_pos h2] at h
          obtain ⟨k1, k2⟩ := ih _ h
          dsimp only at k1 k2
          refine ⟨?_, ?_⟩
          · rw [(markFault_fields _ _).2.1, k1]
            omega
          · intro hb
            rw [(markFault_fields _ _).2.2, k2 (by omega)]
            simp
            omega
        · rename_i h2
          rw [if_neg h2] at h
          split
          · rename_i h3
            rw [if_pos h3] at h
            split
            · rename_i h4
              rw [if_pos h4] at h
              cases h
            · rename_i h4
              rw [if_neg h4] at h
              obtain ⟨k1, k2⟩ := ih _ h
              dsimp only at k1 k2
              refine ⟨?_, ?_⟩
              · rw [(markFault_fields _ _).2.1, k1]
                omega
              · intro hb
                rw [(markFault_fields _ _).2.2, k2 (by omega)]
                simp
                omega
          · rename_i h3
            rw [if_neg h3] at h
            cases h

theorem createProgramLoop_fail_line (bad : List Char) (rest : List (List Char)) (p : Program)
    (h : (createProgramLoop [bad] p).ok = false) :
    createProgramLoop (bad :: rest) p = createProgramLoop [bad] p ∧
    (createProgramLoop [bad] p).program.instructionCount = p.instructionCount + 1 ∧
    (createProgramLoop [bad] p).fault = decide (MAX_INSTRUCTIONS ≤ p.instructionCount) := by
  rw [createProgramLoop_cons] at h ⊢
  rw [createProgramLoop_cons]
  split
  · rename_i ht
    rw [ht] at h
    simp [createProgramLoop] at h
  · rename_i c tl ht
    rw [ht] at h
    dsimp only at h ⊢
    split
    · rename_i h1
      rw [if_pos h1] at h
      simp [createProgramLoop, markFault] at h
    · rename_i h1
      rw [if_neg h1] at h
      split
      · rename_i h2
        rw [if_pos h2] at h
        simp [createProgramLoop, markFault] at h
      · rename_i h2
        rw [if_neg h2] at h
        split
        · rename_i h3
          rw [if_pos h3] at h
          split
          · exact ⟨rfl, rfl, rfl⟩
          · rename_i h4
            rw [if_neg h4] at h
            simp [createProgramLoop, markFault] at h
        · exact ⟨rfl, rfl, rfl⟩

theorem createProgramLoop_fail_at (pre rest : List (List Char)) (bad : List Char)
    (p : Program) (hpre : (createProgramLoop pre p).ok = true)
    (hbad : (createProgramLoop [bad] (createProgramLoop pre p).program).ok = false)
    (hroom : p.instructionCount + nonBlank pre < MAX_INSTRUCTIONS) :
    (createProgramLoop (pre ++ bad :: rest) p).ok = false ∧
    (createProgramLoop (pre ++ bad :: rest) p).fault = false ∧
    (createProgramLoop (pre ++ bad :: rest) p).program.instructionCount =
      p.instructionCount + nonBlank pre + 1 := by
  obtain ⟨hc, hf⟩ := createProgramLoop_count pre p hpre
  rw [createProgramLoop_append pre (bad :: rest) p hpre]
  obtain ⟨e, hc2, hf2⟩ := createProgramLoop_fail_line bad rest _ hbad
  rw [e]
  refine ⟨hbad, ?_, ?_⟩
  · rw [(markFault_fields _ _).2.2, hf (by omega), hf2, hc]
    simp
    omega
  · rw [(markFault_fields _ _).2.1, hc2, hc]


theorem quantum_replace (fs : String → Option (List String)) (s : Sim) (r : Nat)
    (hr : s.runningState = some r)
    (hpc : s.cpu.programCounter < (cpuProgram s).instructionCount)
    (hop : ((cpuProgram s).instructions.getD s.cpu.programCounter default).operation = 'R') :
    quantum fs s = tick (replace fs
      ((cpuProgram s).instructions.getD s.cpu.programCounter default).stringArg
      { s with cpu := { s.cpu with programCounter := s.cpu.programCounter + 1 } }) := by
  rw [quantum_fetch fs s r hr hpc, (execute_op fs _ _).2.2.2.2.2.2 hop]
  apply schedule_of_running _ r
  have := (replace_frame fs
    ((cpuProgram s).instructions.getD s.cpu.programCounter default).stringArg
    { s with cpu := { s.cpu with programCounter := s.cpu.programCounter + 1 } }).2.1
  unfold tick
  dsimp only
  rw [this]
  exact hr

theorem program_replace (fs : String → Option (List String)) (arg : String) (s : Sim)
    (hlt : s.cpu.pProgram < s.pcbTable.length) :
    (getPcb (replace fs arg s).pcbTable s.cpu.pProgram).program =
      (createProgram fs arg
        { (getPcb s.pcbTable s.cpu.pProgram).program with instructionCount := 0 }).program ∧
    (replace fs arg s).fault =
      (s.fault || (createProgram fs arg
        { (getPcb s.pcbTable s.cpu.pProgram).program with instructionCount := 0 }).fault) := by
  unfold replace
  dsimp only
  split <;> simp [getPcb_modifyPcb, length_modifyPcb, hlt]

/-- C12 (counterexample). Slot 0 runs `R bad`; the file `bad` holds
`S 1 / X 2 / S 3`, so the load fails on its second line. After the Step the
program of the running process holds 2 instructions, not zero: the decoded
`S 1` and the cell written for the rejected line. -/
theorem C12_partial_program_counterexample :
    Inv (replaceDemo "bad") ∧
    Valid (replaceDemo "bad") ∧
    (replaceDemo "bad").runningState = some 0 ∧
    (replaceDemo "bad").cpu.pProgram = 0 ∧
    (cpuProgram (replaceDemo "bad")).instructions.getD (replaceDemo "bad").cpu.programCounter
      default = ⟨'R', 0, "bad"⟩ ∧
    (createProgram demoFs "bad"
      { (getPcb (replaceDemo "bad").pcbTable 0).program with instructionCount := 0 }).ok
      = false ∧
    (createProgram demoFs "bad"
      { (getPcb (replaceDemo "bad").pcbTable 0).program with instructionCount := 0 }).fault
      = false ∧
    (quantum demoFs (replaceDemo "bad")).runningState = some 0 ∧
    (quantum demoFs (replaceDemo "bad")).fault = false ∧
    (getPcb (quantum demoFs (replaceDemo "bad")).pcbTable 0).program.instructionCount = 2 ∧
    (getPcb (quantum demoFs (replaceDemo "bad")).pcbTable 0).program.instructionCount ≠ 0 ∧
    (getPcb (quantum demoFs (replaceDemo "bad")).pcbTable 0).program.instructions.take 2
      = [⟨'S', 1, "1"⟩, ⟨'X', 7, "2"⟩] := by
  decide

/-- C12 (amended). Slot `r` runs on its own program and fetches `R path`. If
the file cannot be opened, the program of `r` holds zero instructions after
the Step. If the load fails at a piece `bad` read by `fgets` that follows
pieces `pre` which decode, fewer than `MAX_INSTRUCTIONS` of them non-blank,
then every store stays inside the array and the program holds one instruction
per non-blank piece of `pre` and one more for `bad`, so it is not empty. In
both cases the program is the one `createProgram` leaves when started from the
emptied program. -/
theorem C12_replace_failed_load (fs : String → Option (List String)) (s : Sim) (r : Nat)
    (hr : s.runningState = some r) (hcp : s.cpu.pProgram = r) (hlt : r < s.pcbTable.length)
    (hpc : s.cpu.programCounter < (cpuProgram s).instructionCount)
    (hop : ((cpuProgram s).instructions.getD s.cpu.programCounter default).operation = 'R') :
    (getPcb (quantum fs s).pcbTable r).program =
      (createProgram fs ((cpuProgram s).instructions.getD s.cpu.programCounter default).stringArg
        { (getPcb s.pcbTable r).program with instructionCount := 0 }).program ∧
    (quantum fs s).fault =
      (s.fault || (createProgram fs
        ((cpuProgram s).instructions.getD s.cpu.programCounter default).stringArg
        { (getPcb s.pcbTable r).program with instructionCount := 0 }).fault) ∧
    (fs ((cpuProgram s).instructions.getD s.cpu.programCounter default).stringArg = none →
      (createProgram fs ((cpuProgram s).instructions.getD s.cpu.programCounter default).stringArg
        { (getPcb s.pcbTable r).program with instructionCount := 0 }).ok = false ∧
      (quantum fs s).fault = s.fault ∧
      (getPcb (quantum fs s).pcbTable r).program.instructionCount = 0) ∧
    (∀ lines pre bad rest,
      fs ((cpuProgram s).instructions.getD s.cpu.programCounter default).stringArg
        = some lines →
      filePieces lines = pre ++ bad :: rest →
      (createProgramLoop pre
        { (getPcb s.pcbTable r).program with instructionCount := 0 }).ok = true →
      (createProgramLoop [bad] (createProgramLoop pre
        { (getPcb s.pcbTable r).program with instructionCount := 0 }).program).ok = false →
      nonBlank pre < MAX_INSTRUCTIONS →
      (createProgram fs ((cpuProgram s).instructions.getD s.cpu.programCounter default).stringArg
        { (getPcb s.pcbTable r).program with instructionCount := 0 }).ok = false ∧
      (quantum fs s).fault = s.fault ∧
      (getPcb (quantum fs s).pcbTable r).program.instructionCount = nonBlank pre + 1) := by
  subst hcp
  have hrep := program_replace fs
    ((cpuProgram s).instructions.getD s.cpu.programCounter default).stringArg
    { s with cpu := { s.cpu with programCounter := s.cpu.programCounter + 1 } } hlt
  have hprog : (getPcb (quantum fs s).pcbTable s.cpu.pProgram).program =
      (createProgram fs ((cpuProgram s).instructions.getD s.cpu.programCounter default).stringArg
        { (getPcb s.pcbTable s.cpu.pProgram).program with instructionCount := 0 }).program := by
    rw [quantum_replace fs s _ hr hpc hop]
    exact hrep.1
  have hfault : (quantum fs s).fault =
      (s.fault || (createProgram fs
        ((cpuProgram s).instructions.getD s.cpu.programCounter default).stringArg
        { (getPcb s.pcbTable s.cpu.pProgram).program with instructionCount := 0 }).fault) := by
    rw [quantum_replace fs s _ hr hpc hop]
    exact hrep.2
  refine ⟨hprog, hfault, ?_, ?_⟩
  · intro hnone
    rw [hprog, hfault]
    unfold createProgram
    rw [hnone]
    exact ⟨rfl, Bool.or_false _, rfl⟩
  · intro lines pre bad rest hsome hpieces hpre hbad hroom
    rw [hprog, hfault]
    unfold createProgram
    rw [hsome]
    dsimp only
    rw [hpieces]
    obtain ⟨h1, h2, h3⟩ := createProgramLoop_fail_at pre rest bad _ hpre hbad
      (by dsimp only; omega)
    refine ⟨h1, ?_, ?_⟩
    · rw [h2]
      exact Bool.or_false _
    · rw [h3]
      simp

/-- C12 (amended) at concrete inputs: the file `missing` does not exist; the
file `bad` fails on its second line after one decoded line. -/
theorem C12_replace_failed_load_witness :
    (getPcb (quantum demoFs (replaceDemo "missing")).pcbTable 0).program.instructionCount = 0 ∧
    nonBlank ((filePieces ["S 1", "X 2", "S 3"]).take 1) = 1 ∧
    (getPcb (quantum demoFs (replaceDemo "bad")).pcbTable 0).program.instructionCount
      = nonBlank ((filePieces ["S 1", "X 2", "S 3"]).take 1) + 1 :=
  ⟨((C12_replace_failed_load demoFs (replaceDemo "missing") 0 rfl rfl (by decide) (by decide)
      (by decide)).2.2.1 (by decide)).2.2,
   by decide,
   ((C12_replace_failed_load demoFs (replaceDemo "bad") 0 rfl rfl (by decide) (by decide)
      (by decide)).2.2.2 ["S 1", "X 2", "S 3"]
      ((filePieces ["S 1", "X 2", "S 3"]).take 1)
      ((filePieces ["S 1", "X 2", "S 3"]).getD 1 [])
      ((filePieces ["S 1", "X 2", "S 3"]).drop 2)
      (by decide) (by decide) (by decide) (by decide) (by decide)).2.2⟩

theorem nextProcessId_schedule (s : Sim) : (schedule s).nextProcessId = s.nextProcessId :=
  (schedule_frame s).2.2.2.2

theorem nextProcessId_replace (fs : String → Option (List String)) (arg : String) (s : Sim) :
    (replace fs arg s).nextProcessId = s.nextProcessId := by
  unfold replace
  dsimp only
  split <;> rfl

theorem nextProcessId_execute (fs : String → Option (List String)) (ins : Instruction) (s : Sim)
    (h : ins.operation ≠ 'F') : (execute fs ins s).nextProcessId = s.nextProcessId := by
  unfold execute
  split
  · rfl
  split
  · rfl
  split
  · rfl
  split
  · unfold block
    split <;> rfl
  split
  · unfold endProcess
    split <;> rfl
  split
  · exact nextProcessId_replace fs _ _
  · rfl

theorem processId_forkAssign (value : Int) (s : Sim) (r n j : Nat) :
    (getPcb (forkAssign value s r n) j).processId =
      if n = j ∧ n < s.pcbTable.length then s.nextProcessId
      else (getPcb s.pcbTable j).processId := by
  unfold forkAssign
  dsimp only
  refine Eq.trans (getPcb_modifyPcb_field (fun e => e.processId) _ _ _ _ (fun _ => rfl)) ?_
  refine Eq.trans (getPcb_modifyPcb_field (fun e => e.processId) _ _ _ _ (fun _ => rfl)) ?_
  refine Eq.trans (getPcb_modifyPcb_field (fun e => e.processId) _ _ _ _ (fun _ => rfl)) ?_
  refine Eq.trans (getPcb_modifyPcb_field (fun e => e.processId) _ _ _ _ (fun _ => rfl)) ?_
  refine Eq.trans (getPcb_modifyPcb_field (fun e => e.processId) _ _ _ _ (fun _ => rfl)) ?_
  refine Eq.trans (getPcb_modifyPcb_field (fun e => e.processId) _ _ _ _ (fun _ => rfl)) ?_
  refine Eq.trans (getPcb_modifyPcb_field (fun e => e.processId) _ _ _ _ (fun _ => rfl)) ?_
  refine Eq.trans (getPcb_modifyPcb_field (fun e => e.processId) _ _ _ _ (fun _ => rfl)) ?_
  refine Eq.trans (getPcb_modifyPcb_field (fun e => e.processId) _ _ _ _ (fun _ => rfl)) ?_
  rw [getPcb_modifyPcb]
  split <;> rfl


theorem processId_schedule (s : Sim) (j : Nat) :
    (getPcb (schedule s).pcbTable j).processId = (getPcb s.pcbTable j).processId := by
  unfold schedule
  split
  · rfl
  · split
    · rfl
    · dsimp only
      exact getPcb_modifyPcb_field (fun e => e.processId) _ _ _ _ (fun _ => rfl)

theorem processId_block (s : Sim) (j : Nat) :
    (getPcb (block s).pcbTable j).processId = (getPcb s.pcbTable j).processId := by
  unfold block
  split
  · rfl
  · dsimp only
    exact getPcb_modifyPcb_field (fun e => e.processId) _ _ _ _ (fun _ => rfl)

theorem processId_endProcess (s : Sim) (j : Nat) :
    (getPcb (endProcess s).pcbTable j).processId = (getPcb s.pcbTable j).processId := by
  unfold endProcess
  split
  · rfl
  · dsimp only
    exact getPcb_modifyPcb_field (fun e => e.processId) _ _ _ _ (fun _ => rfl)

theorem processId_replace (fs : String → Option (List String)) (arg : String) (s : Sim)
    (j : Nat) :
    (getPcb (replace fs arg s).pcbTable j).processId = (getPcb s.pcbTable j).processId := by
  unfold replace
  dsimp only
  split
  · dsimp only
    refine Eq.trans (getPcb_modifyPcb_field (fun e => e.processId) _ _ _ _ (fun _ => rfl)) ?_
    exact getPcb_modifyPcb_field (fun e => e.processId) _ _ _ _ (fun _ => rfl)
  · dsimp only
    refine Eq.trans (getPcb_modifyPcb_field (fun e => e.processId) _ _ _ _ (fun _ => rfl)) ?_
    exact getPcb_modifyPcb_field (fun e => e.processId) _ _ _ _ (fun _ => rfl)

theorem processId_execute (fs : String → Option (List String)) (ins : Instruction) (s : Sim)
    (h : ins.operation ≠ 'F') (j : Nat) :
    (getPcb (execute fs ins s).pcbTable j).processId = (getPcb s.pcbTable j).processId := by
  unfold execute
  split
  · rfl
  split
  · rfl
  split
  · rfl
  split
  · exact processId_block s j
  split
  · exact processId_endProcess s j
  split
  · exact processId_replace fs _ s j
  · rfl

/-- What one Step does to the process ids: without a child the counter and
every stored `processId` are unchanged; with a child in slot `n` the counter
grows by 1, slot `n` holds the old counter value and the other slots keep
their `processId`. -/
theorem quantum_ids (fs : String → Option (List String)) (s : Sim) :
    (forkChild s = none →
      (quantum fs s).nextProcessId = s.nextProcessId ∧
      ∀ j, (getPcb (quantum fs s).pcbTable j).processId = (getPcb s.pcbTable j).processId) ∧
    (∀ n, forkChild s = some n →
      (quantum fs s).nextProcessId = s.nextProcessId + 1 ∧
      (getPcb (quantum fs s).pcbTable n).processId = s.nextProcessId ∧
      ∀ j, j ≠ n →
        (getPcb (quantum fs s).pcbTable j).processId = (getPcb s.pcbTable j).processId) := by
  cases hr : s.runningState with
  | none =>
    have hq : quantum fs s = tick s := by
      unfold quantum
      rw [hr]
    have hf : forkChild s = none := by
      unfold forkChild
      rw [hr]
    rw [hq, hf]
    exact ⟨fun _ => ⟨rfl, fun _ => rfl⟩, fun n h => by cases h⟩
  | some r =>
    by_cases hpc : s.cpu.programCounter < (cpuProgram s).instructionCount
    · by_cases hop :
        ((cpuProgram s).instructions.getD s.cpu.programCounter default).operation = 'F'
      · have hf : forkChild s = findTerminated s.pcbTable := by
          unfold forkChild
          rw [hr]
          simp only [hpc, hop, and_self, if_true]
        rw [hf]
        constructor
        · intro hnone
          have hq : quantum fs s =
              { s with cpu := { s.cpu with programCounter := s.cpu.programCounter + 1 },
                       timestamp := s.timestamp + 1 } := by
            rw [quantum_fetch fs s r hr hpc, (execute_op fs _ _).2.2.2.2.2.1 hop]
            unfold forkProcess
            rw [hnone]
            exact schedule_of_running _ r hr
          rw [hq]
          exact ⟨rfl, fun _ => rfl⟩
        · intro n hn
          rw [quantum_fork fs s r n hr hpc hop hn]
          dsimp only
          have hnl : n < s.pcbTable.length :=
            lt_length_of_stateOf_ne _ _ (by rw [(findTerminated_some _ _ hn).2.1]; decide)
          refine ⟨rfl, ?_, ?_⟩
          · rw [processId_forkAssign]
            simp [hnl]
          · intro j hj
            rw [processId_forkAssign]
            have : ¬ n = j := fun e => hj e.symm
            simp [this]
      · have hf : forkChild s = none := by
          unfold forkChild
          rw [hr]
          simp only [hop, and_false, if_false]
        rw [hf]
        refine ⟨fun _ => ?_, fun n h => by cases h⟩
        rw [quantum_fetch fs s r hr hpc]
        refine ⟨?_, fun j => ?_⟩
        · rw [nextProcessId_schedule]
          exact nextProcessId_execute fs _ _ hop
        · rw [processId_schedule]
          exact processId_execute fs _ _ hop j
    · have hf : forkChild s = none := by
        unfold forkChild
        rw [hr]
        simp only [hpc, false_and, if_false]
      rw [hf]
      refine ⟨fun _ => ?_, fun n h => by cases h⟩
      rw [quantum_past_end fs s r hr (Nat.le_of_not_lt hpc)]
      refine ⟨?_, fun j => ?_⟩
      · rw [nextProcessId_schedule]
        unfold tick endProcess
        split <;> rfl
      · rw [processId_schedule]
        exact processId_endProcess s j

theorem unblock_ids (s : Sim) :
    (unblock s).nextProcessId = s.nextProcessId ∧
    ∀ j, (getPcb (unblock s).pcbTable j).processId = (getPcb s.pcbTable j).processId := by
  unfold unblock
  split
  · exact ⟨nextProcessId_schedule s, processId_schedule s⟩
  · refine ⟨nextProcessId_schedule _, fun j => ?_⟩
    rw [processId_schedule]
    dsimp only
    exact getPcb_modifyPcb_field (fun e => e.processId) _ _ _ _ (fun _ => rfl)


theorem command_ids (fs : String → Option (List String)) (ch : Char) (s : Sim) :
    (issuedId fs ch s = none ∧ (command fs ch s).nextProcessId = s.nextProcessId) ∨
    (issuedId fs ch s = some s.nextProcessId ∧
      (command fs ch s).nextProcessId = s.nextProcessId + 1) := by
  unfold issuedId command
  by_cases hq : ch = 'Q'
  · rw [if_pos hq, if_pos hq]
    cases hf : forkChild s with
    | none => exact Or.inl ⟨rfl, ((quantum_ids fs s).1 hf).1⟩
    | some n =>
      obtain ⟨h1, h2, -⟩ := (quantum_ids fs s).2 n hf
      refine Or.inr ⟨?_, h1⟩
      simp only [Option.map_some']
      rw [h2]
  · rw [if_neg hq, if_neg hq]
    refine Or.inl ⟨rfl, ?_⟩
    split
    · exact (unblock_ids s).1
    · split <;> rfl

theorem command_stop (fs : String → Option (List String)) (s : Sim) : command fs 'T' s = s := by
  unfold command printState
  simp

theorem idsBelow_quantum (fs : String → Option (List String)) (s : Sim) (h : IdsBelow s) :
    IdsBelow (quantum fs s) := by
  intro i hi
  cases hf : forkChild s with
  | none =>
    obtain ⟨h1, h2⟩ := (quantum_ids fs s).1 hf
    rw [h1, h2]
    exact h i hi
  | some n =>
    obtain ⟨h1, h2, h3⟩ := (quantum_ids fs s).2 n hf
    rw [h1]
    by_cases e : i = n
    · rw [e, h2]
      omega
    · rw [h3 i e]
      have := h i hi
      omega

theorem idsBelow_unblock (s : Sim) (h : IdsBelow s) : IdsBelow (unblock s) := by
  intro i hi
  rw [(unblock_ids s).1, (unblock_ids s).2]
  exact h i hi

theorem issuedIds_increasing (fs : String → Option (List String)) (input : List Char)
    (s : Sim) :
    List.Pairwise (fun a b => a < b) (issuedIds fs input s) ∧
    (∀ x ∈ issuedIds fs input s,
      s.nextProcessId ≤ x ∧ x < (commandLoop fs input s).nextProcessId) ∧
    s.nextProcessId ≤ (commandLoop fs input s).nextProcessId := by
  induction input generalizing s with
  | nil =>
    unfold issuedIds commandLoop
    exact ⟨List.Pairwise.nil, fun x hx => absurd hx (List.not_mem_nil x), le_refl _⟩
  | cons ch rest ih =>
    unfold issuedIds commandLoop
    by_cases ht : ch = 'T'
    · simp only [ht, if_true]
      rw [command_stop]
      exact ⟨List.Pairwise.nil, fun x hx => absurd hx (List.not_mem_nil x), le_refl _⟩
    · simp only [ht, if_false]
      obtain ⟨ih1, ih2, ih3⟩ := ih (command fs ch s)
      rcases command_ids fs ch s with ⟨h1, h2⟩ | ⟨h1, h2⟩
      · rw [h1]
        simp only [Option.toList, List.nil_append]
        rw [h2] at ih2 ih3
        exact ⟨ih1, ih2, ih3⟩
      · rw [h1]
        simp only [Option.toList, List.singleton_append]
        rw [h2] at ih2 ih3
        refine ⟨List.Pairwise.cons ?_ ih1, ?_, by omega⟩
        · intro y hy
          have := (ih2 y hy).1
          omega
        · intro x hx
          rcases List.mem_cons.mp hx with e | hx
          · rw [e]
            constructor
            · exact le_refl _
            · omega
          · have := ih2 x hx
            constructor
            · omega
            · exact this.2

theorem startUp_ids (fs : String → Option (List String)) (filename : String) (s0 : Sim)
    (h : startUp fs filename = some s0) :
    (getPcb s0.pcbTable 0).processId = 0 ∧ s0.nextProcessId = 1 ∧ IdsBelow s0 := by
  unfold startUp at h
  dsimp only at h
  split at h
  · have e := Option.some.inj h
    subst e
    dsimp only
    refine ⟨?_, rfl, ?_⟩
    · rw [getPcb_modifyPcb]
      simp [initialGlobals, MAX_PROCESSES]
    · intro i _
      dsimp only
      rw [getPcb_modifyPcb]
      split
      · show (0 : Int) < 1
        decide
      · have : getPcb initialGlobals.pcbTable i = default := by
          unfold getPcb initialGlobals
          simp only [List.getD_eq_getElem?_getD, List.getElem?_replicate]
          split <;> rfl
        rw [this]
        show (0 : Int) < 1
        decide
  · cases h


theorem idsBelow_command (fs : String → Option (List String)) (ch : Char) (s : Sim)
    (h : IdsBelow s) : IdsBelow (command fs ch s) := by
  unfold command
  split
  · exact idsBelow_quantum fs s h
  split
  · exact idsBelow_unblock s h
  split
  · exact h
  · exact h

theorem idsBelow_commandLoop (fs : String → Option (List String)) (input : List Char) (s : Sim)
    (h : IdsBelow s) : IdsBelow (commandLoop fs input s) := by
  induction input generalizing s with
  | nil => exact h
  | cons ch rest ih =>
    unfold commandLoop
    split
    · exact idsBelow_command fs ch s h
    · exact ih _ (idsBelow_command fs ch s h)

/-- C13 (evaluation at the failing input). In the start-up state of file `init`
slot 1 has PCB state Ready but is not in the ready queue, and this is still so
after a Step: the untouched cells of the zero-filled table read as
`STATE_READY`. -/
theorem C13_ready_state_without_queue :
    startUp demoFs "init" = some demoStart ∧
    Reachable demoFs "init" demoStart ∧
    demoStart.readyQueue = [] ∧
    stateOf demoStart.pcbTable 1 = State.STATE_READY ∧
    ¬ (1 ∈ demoStart.readyQueue ↔ stateOf demoStart.pcbTable 1 = State.STATE_READY) ∧
    Reachable demoFs "init" (quantum demoFs demoStart) ∧
    ¬ (1 ∈ (quantum demoFs demoStart).readyQueue ↔
      stateOf (quantum demoFs demoStart).pcbTable 1 = State.STATE_READY) :=
  ⟨by decide, Reachable.start demoStart (by decide), by decide, by decide, by decide,
   Reachable.step demoStart (Reachable.start demoStart (by decide)), by decide⟩

/-- C15 (evaluation at the failing input). In the start-up state of file `init`
slots 0 and 1 are distinct, neither is Terminated (Running and Ready), and
both have `processId = 0`. -/
theorem C15_duplicate_process_id_at_start :
    startUp demoFs "init" = some demoStart ∧
    Reachable demoFs "init" demoStart ∧
    stateOf demoStart.pcbTable 0 = State.STATE_RUNNING ∧
    stateOf demoStart.pcbTable 1 = State.STATE_READY ∧
    (getPcb demoStart.pcbTable 0).processId = 0 ∧
    (getPcb demoStart.pcbTable 1).processId = 0 ∧
    ¬ ((0 : Nat) ≠ 1 → stateOf demoStart.pcbTable 0 ≠ State.STATE_TERMINATED →
      stateOf demoStart.pcbTable 1 ≠ State.STATE_TERMINATED →
      (getPcb demoStart.pcbTable 0).processId ≠ (getPcb demoStart.pcbTable 1).processId) :=
  ⟨by decide, Reachable.start demoStart (by decide), by decide, by decide, by decide, by decide,
   by decide⟩

theorem schedule_idempotent (s : Sim) : schedule (schedule s) = schedule s := by
  cases hr : s.runningState with
  | some r => rw [schedule_of_running s r hr, schedule_of_running s r hr]
  | none =>
    cases hq : s.readyQueue with
    | nil => rw [schedule_of_idle_empty s hr hq, schedule_of_idle_empty s hr hq]
    | cons q rest =>
      apply schedule_of_running _ q
      unfold schedule
      rw [hr, hq]

theorem unblock_of_empty (s : Sim) (h : s.blockedQueue = []) : unblock s = schedule s := by
  unfold unblock
  rw [h]

/-- C16. Unblock with an empty blocked queue is exactly one dispatcher
attempt. When a slot is running the whole state is unchanged; calling it
twice equals calling it once; the clock never changes. -/
theorem C16_unblock_nothing_blocked (s : Sim) (h : s.blockedQueue = []) :
    unblock s = schedule s ∧
    (∀ r, s.runningState = some r → unblock s = s) ∧
    unblock (unblock s) = unblock s ∧
    (unblock s).timestamp = s.timestamp := by
  have e := unblock_of_empty s h
  have hb : (schedule s).blockedQueue = [] := by
    rw [(schedule_frame s).2.1, h]
  refine ⟨e, ?_, ?_, ?_⟩
  · intro r hr
    rw [e, schedule_of_running s r hr]
  · rw [e, unblock_of_empty _ hb, schedule_idempotent]
  · rw [e, (schedule_frame s).1]

/-- C16 at concrete states with an empty blocked queue: slot 0 running, and an
idle CPU with ready queue `[2]`. -/
theorem C16_unblock_nothing_blocked_witness :
    unblock { demo State.STATE_RUNNING State.STATE_TERMINATED (some 0) 1 5 with
        blockedQueue := [] } =
      { demo State.STATE_RUNNING State.STATE_TERMINATED (some 0) 1 5 with blockedQueue := [] } ∧
    unblock (unblock { demo State.STATE_BLOCKED State.STATE_TERMINATED none 1 5 with
        blockedQueue := [] }) =
      unblock { demo State.STATE_BLOCKED State.STATE_TERMINATED none 1 5 with
        blockedQueue := [] } ∧
    (unblock { demo State.STATE_BLOCKED State.STATE_TERMINATED none 1 5 with
        blockedQueue := [] }).timestamp = 4 :=
  ⟨(C16_unblock_nothing_blocked
      { demo State.STATE_RUNNING State.STATE_TERMINATED (some 0) 1 5 with blockedQueue := [] }
      rfl).2.1 0 rfl,
   (C16_unblock_nothing_blocked
      { demo State.STATE_BLOCKED State.STATE_TERMINATED none 1 5 with blockedQueue := [] }
      rfl).2.2.1,
   (C16_unblock_nothing_blocked
      { demo State.STATE_BLOCKED State.STATE_TERMINATED none 1 5 with blockedQueue := [] }
      rfl).2.2.2⟩

/-- C17. End-to-end trace of `S 1 / B / S 2 / E` from start-up under the
commands Step, Step, Step, Unblock, Step, Step. -/
theorem C17_end_to_end_trace :
    startUp traceFs "trace" = some traceStart ∧
    ((getPcb traceStart.pcbTable 0).program.instructions.take 4 =
        [⟨'S', 1, "1"⟩, ⟨'B', 0, ""⟩, ⟨'S', 2, "2"⟩, ⟨'E', 0, ""⟩] ∧
      (getPcb traceStart.pcbTable 0).program.instructionCount = 4) ∧
    ((quantum traceFs traceStart).cpu.value = 1 ∧
      (quantum traceFs traceStart).timestamp = 1) ∧
    ((quantum traceFs (quantum traceFs traceStart)).blockedQueue = [0] ∧
      stateOf (quantum traceFs (quantum traceFs traceStart)).pcbTable 0 = State.STATE_BLOCKED ∧
      (quantum traceFs (quantum traceFs traceStart)).runningState = none ∧
      (quantum traceFs (quantum traceFs traceStart)).readyQueue = [] ∧
      (quantum traceFs (quantum traceFs traceStart)).timestamp = 2) ∧
    (quantum traceFs (quantum traceFs (quantum traceFs traceStart)) =
      { quantum traceFs (quantum traceFs traceStart) with timestamp := 3 }) ∧
    ((unblock (quantum traceFs (quantum traceFs (quantum traceFs traceStart)))).runningState
        = some 0 ∧
      (unblock (quantum traceFs (quantum traceFs (quantum traceFs traceStart)))).readyQueue = [] ∧
      (unblock (quantum traceFs (quantum traceFs (quantum traceFs traceStart)))).blockedQueue
        = [] ∧
      (unblock (quantum traceFs (quantum traceFs (quantum traceFs traceStart)))).timestamp = 3 ∧
      (unblock (quantum traceFs (quantum traceFs (quantum traceFs traceStart)))).cpu.programCounter
        = 2 ∧
      (unblock (quantum traceFs (quantum traceFs (quantum traceFs traceStart)))).cpu.value = 1) ∧
    ((quantum traceFs (unblock (quantum traceFs (quantum traceFs
        (quantum traceFs traceStart))))).cpu.value = 2 ∧
      (quantum traceFs (unblock (quantum traceFs (quantum traceFs
        (quantum traceFs traceStart))))).timestamp = 4) ∧
    (stateOf (quantum traceFs (quantum traceFs (unblock (quantum traceFs (quantum traceFs
        (quantum traceFs traceStart)))))).pcbTable 0 = State.STATE_TERMINATED ∧
      (quantum traceFs (quantum traceFs (unblock (quantum traceFs (quantum traceFs
        (quantum traceFs traceStart)))))).timestamp = 5 ∧
      (quantum traceFs (quantum traceFs (unblock (quantum traceFs (quantum traceFs
        (quantum traceFs traceStart)))))).cumulativeTimeDiff = 5 ∧
      (quantum traceFs (quantum traceFs (unblock (quantum traceFs (quantum traceFs
        (quantum traceFs traceStart)))))).numTerminatedProcesses = 1) ∧
    commandLoop traceFs ['Q', 'Q', 'Q', 'U', 'Q', 'Q', 'T'] traceStart =
      quantum traceFs (quantum traceFs (unblock (quantum traceFs (quantum traceFs
        (quantum traceFs traceStart))))) ∧
    averageTurnaround (commandLoop traceFs ['Q', 'Q', 'Q', 'U', 'Q', 'Q', 'T'] traceStart) = 5 := by
  refine ⟨by decide, by decide, by decide, by decide, by decide, by decide, by decide,
    by decide, by decide, ?_⟩
  have h1 : (commandLoop traceFs ['Q', 'Q', 'Q', 'U', 'Q', 'Q', 'T']
      traceStart).numTerminatedProcesses = 1 := by decide
  have h2 : (commandLoop traceFs ['Q', 'Q', 'Q', 'U', 'Q', 'Q', 'T']
      traceStart).cumulativeTimeDiff = 5 := by decide
  unfold averageTurnaround
  rw [h1, h2]
  norm_num

theorem noIdleReady_schedule (s : Sim) : NoIdleReady (schedule s) := by
  unfold NoIdleReady schedule
  cases hr : s.runningState with
  | some r => simp [hr]
  | none =>
    cases hq : s.readyQueue with
    | nil => simp [hr, hq]
    | cons q rest => simp

theorem noIdleReady_quantum (fs : String → Option (List String)) (s : Sim)
    (h : NoIdleReady s) : NoIdleReady (quantum fs s) := by
  unfold quantum
  split
  · rename_i hr
    intro _
    exact h hr
  · split
    · exact noIdleReady_schedule _
    · exact noIdleReady_schedule _

theorem noIdleReady_unblock (s : Sim) : NoIdleReady (unblock s) := by
  unfold unblock
  split
  · exact noIdleReady_schedule _
  · exact noIdleReady_schedule _

theorem noIdleReady_reachable (fs : String → Option (List String)) (filename : String)
    (s : Sim) (h : Reachable fs filename s) : NoIdleReady s := by
  induction h with
  | start s hs =>
    intro hr
    unfold startUp at hs
    dsimp only at hs
    split at hs
    · have e := Option.some.inj hs
      subst e
      cases hr
    · cases hs
  | step s _ ih => exact noIdleReady_quantum fs s ih
  | unblock s _ _ => exact noIdleReady_unblock s
  | snapshot s _ ih => exact ih

/-- C19. The CPU is never idle while a process is ready: the predicate "no
running slot implies empty ready queue" holds in the start-up state, is
preserved by every Step and every Unblock, and so holds in every reachable
state; an idle Step therefore leaves no ready process waiting. -/
theorem C19_never_idle_while_ready (fs : String → Option (List String)) :
    (∀ filename s0, startUp fs filename = some s0 → NoIdleReady s0) ∧
    (∀ s, NoIdleReady s → NoIdleReady (quantum fs s)) ∧
    (∀ s, NoIdleReady s → NoIdleReady (unblock s)) ∧
    (∀ filename s, Reachable fs filename s → NoIdleReady s) ∧
    (∀ filename s, Reachable fs filename s → s.runningState = none →
      s.readyQueue = [] ∧ (quantum fs s).readyQueue = []) := by
  refine ⟨?_, noIdleReady_quantum fs, fun s _ => noIdleReady_unblock s,
    noIdleReady_reachable fs, ?_⟩
  · intro filename s0 h
    exact noIdleReady_reachable fs filename s0 (Reachable.start s0 h)
  · intro filename s h hr
    have h1 := noIdleReady_reachable fs filename s h hr
    have h2 := noIdleReady_quantum fs s (noIdleReady_reachable fs filename s h)
    refine ⟨h1, h2 ?_⟩
    unfold quantum tick
    rw [hr]

/-- C19 at concrete inputs: the start-up state of file `trace`, the idle state
two Steps later (slot 0 blocked), and the state after an Unblock. -/
theorem C19_never_idle_while_ready_witness :
    NoIdleReady traceStart ∧
    ((quantum traceFs (quantum traceFs traceStart)).runningState = none ∧
      (quantum traceFs (quantum traceFs traceStart)).readyQueue = [] ∧
      (quantum traceFs (quantum traceFs (quantum traceFs traceStart))).readyQueue = []) ∧
    NoIdleReady (unblock (quantum traceFs (quantum traceFs traceStart))) :=
  have h := C19_never_idle_while_ready traceFs
  have hreach : Reachable traceFs "trace" (quantum traceFs (quantum traceFs traceStart)) :=
    Reachable.step _ (Reachable.step _ (Reachable.start traceStart (by decide)))
  ⟨h.1 "trace" traceStart (by decide),
   ⟨by decide, (h.2.2.2.2 "trace" _ hreach (by decide)).1,
     (h.2.2.2.2 "trace" _ hreach (by decide)).2⟩,
   h.2.2.1 _ (h.2.2.2.1 "trace" _ hreach)⟩


set_option maxRecDepth 100000 in
/-- C20 (evaluation at the failing input). The init program is the single line
`R big`; the file `big` starts with `F 1` and has 101 non-blank lines. In the
start-up state the process-id counter is 1 and no slot is Terminated. The first
Step loads the file: its first 100 pieces fill `instructions[0..99]`, cell 0
holding `F 1`, and the 101st piece (operation `S`, argument of nine characters
that ends in the character with code 3) is stored at `instructions[100]`,
outside the array, where the tenth and ninth bytes of the argument lie on the
`state` field of slot 0. The run `Q, Q` therefore raises `fault` before its
second Step fetches the `F 1`. -/
theorem C20_fork_after_out_of_bounds_store :
    startUp overlongFs "init" = some overlongStart ∧
    overlongStart.nextProcessId = 1 ∧
    overlongStart.fault = false ∧
    findTerminated overlongStart.pcbTable = none ∧
    forkChild overlongStart = none ∧
    (createProgramLoop ((filePieces overlongLines).take 100)
      { (getPcb overlongStart.pcbTable 0).program with instructionCount := 0
      }).program.instructions.getD 0 default = ⟨'F', 1, "1"⟩ ∧
    (createProgramLoop ((filePieces overlongLines).take 100)
      { (getPcb overlongStart.pcbTable 0).program with instructionCount := 0
      }).program.instructionCount = MAX_INSTRUCTIONS ∧
    ((trim (cstr ((filePieces overlongLines).getD 100 []))).drop 1).length = 9 ∧
    ((trim (cstr ((filePieces overlongLines).getD 100 []))).drop 1).getD 8 'A' = Char.ofNat 3 ∧
    (commandLoop overlongFs ['Q'] overlongStart).fault = true ∧
    (commandLoop overlongFs ['Q', 'Q'] overlongStart).fault = true := by
  decide

set_option maxRecDepth 100000 in
/-- C18 (evaluation at the failing input). The init program is the single line
`R long`; the file `long` starts with `E` and has 101 non-blank lines. In the
start-up state nothing has terminated and slot 0 has start time 0. The first
Step loads the file: its first 100 pieces fill `instructions[0..99]`, cell 0
holding `E`, and the 101st piece (operation `E`, argument of sixteen letters
`A`) is stored at `instructions[100]`, outside the array, where bytes 12 to 15
of the argument lie on the `startTime` field of slot 0. The run `Q, Q, T`
therefore raises `fault` before the Step that terminates the process; with the
start time `0x41414141` that `end()` then reads at tick 1, the `unsigned`
difference it adds is `3200171713`, not `1 + 1 - 0 = 2`. -/
theorem C18_turnaround_after_out_of_bounds_store :
    startUp overlongEndFs "init" = some overlongEndStart ∧
    overlongEndStart.fault = false ∧
    overlongEndStart.numTerminatedProcesses = 0 ∧
    overlongEndStart.cumulativeTimeDiff = 0 ∧
    (getPcb overlongEndStart.pcbTable 0).startTime = 0 ∧
    (createProgramLoop ((filePieces overlongEndLines).take 100)
      { (getPcb overlongEndStart.pcbTable 0).program with instructionCount := 0
      }).program.instructions.getD 0 default = ⟨'E', 0, ""⟩ ∧
    (createProgramLoop ((filePieces overlongEndLines).take 100)
      { (getPcb overlongEndStart.pcbTable 0).program with instructionCount := 0
      }).program.instructionCount = MAX_INSTRUCTIONS ∧
    trim (cstr ((filePieces overlongEndLines).getD 100 [])) = 'E' :: List.replicate 16 'A' ∧
    (commandLoop overlongEndFs ['Q', 'Q', 'T'] overlongEndStart).fault = true ∧
    ('A'.toNat + 256 * 'A'.toNat + 65536 * 'A'.toNat + 16777216 * 'A'.toNat = 1094795585 ∧
      usub (1 + 1) 1094795585 = 3200171713 ∧ usub (1 + 1) 0 = 2) := by
  decide

end ProcessSimulator
